import Mathlib

set_option maxRecDepth 8000
set_option linter.unusedVariables false

/-! Shallow embedding of src/complex-json.js: an incremental size-targeted generator
producing either a deeply nested JSON artifact or a multi-document YAML artifact.
JavaScript numbers are modelled as exact rationals, strings as Lean strings, and the
wall clock (each call of new Date().toISOString()) as an explicit stream of timestamp
strings supplied to the generator. -/

/-- Byte size of a character sequence under UTF-8 encoding. -/
def bsizeL (l : List Char) : Nat := (l.map Char.utf8Size).sum

/-- Models the source helper getByteSize, i.e. Buffer.byteLength(str, "utf8"). -/
def getByteSize (s : String) : Nat := bsizeL s.data

theorem bsizeL_nil : bsizeL [] = 0 := rfl

theorem bsizeL_append (a b : List Char) : bsizeL (a ++ b) = bsizeL a + bsizeL b := by
  simp [bsizeL]

theorem bsizeL_cons (c : Char) (l : List Char) :
    bsizeL (c :: l) = c.utf8Size + bsizeL l := by
  simp [bsizeL]

theorem bsizeL_replicate (n : Nat) (c : Char) :
    bsizeL (List.replicate n c) = n * c.utf8Size := by
  induction n with
  | zero => simp [bsizeL]
  | succ k ih => simp [List.replicate_succ, bsizeL_cons, ih, Nat.succ_mul, Nat.add_comm]

theorem bsizeL_eq_length (l : List Char) (h : ∀ c ∈ l, c.utf8Size = 1) :
    bsizeL l = l.length := by
  induction l with
  | nil => rfl
  | cons c t ih =>
    rw [bsizeL_cons, ih fun d hd => h d (List.mem_cons_of_mem c hd),
      h c (List.mem_cons_self c t)]
    simp [Nat.add_comm]

/-- Decimal digit character. -/
def digitCh (d : Nat) : Char :=
  match d with
  | 0 => '0'
  | 1 => '1'
  | 2 => '2'
  | 3 => '3'
  | 4 => '4'
  | 5 => '5'
  | 6 => '6'
  | 7 => '7'
  | 8 => '8'
  | _ => '9'

/-- Decimal digit sequence of a natural number, most significant digit first; models
the JavaScript rendering of an integer-valued number inside a template literal. The
first argument is recursion fuel; n + 1 units always suffice. -/
def natDigitsAux : Nat → Nat → List Char
  | 0, _ => []
  | fuel + 1, n =>
    if n < 10 then [digitCh n] else natDigitsAux fuel (n / 10) ++ [digitCh (n % 10)]

def natDigits (n : Nat) : List Char := natDigitsAux (n + 1) n

/-- Decimal rendering of a natural number as a string. -/
def natStr (n : Nat) : String := String.mk (natDigits n)

/-- Number of decimal digits of n. -/
def dlen (n : Nat) : Nat := (natDigits n).length

theorem natDigitsAux_fuel :
    ∀ f₁ f₂ n, n < f₁ → n < f₂ → natDigitsAux f₁ n = natDigitsAux f₂ n := by
  intro f₁
  induction f₁ with
  | zero => intro f₂ n h; omega
  | succ k ih =>
    intro f₂ n h₁ h₂
    match f₂, h₂ with
    | m + 1, _ =>
      show (if n < 10 then _ else _) = (if n < 10 then _ else _)
      by_cases hn : n < 10
      · simp [hn]
      · have hd : n / 10 < n := Nat.div_lt_self (by omega) (by omega)
        simp only [hn, if_false]
        rw [ih (m) (n / 10) (by omega) (by omega)]

theorem natDigits_eq (n : Nat) :
    natDigits n =
      if n < 10 then [digitCh n] else natDigits (n / 10) ++ [digitCh (n % 10)] := by
  show natDigitsAux (n + 1) n = _
  by_cases hn : n < 10
  · simp [natDigitsAux, hn]
  · have hd : n / 10 < n := Nat.div_lt_self (by omega) (by omega)
    show (if n < 10 then _ else natDigitsAux n (n / 10) ++ _) = _
    simp only [hn, if_false]
    rw [natDigitsAux_fuel n (n / 10 + 1) (n / 10) (by omega) (by omega)]
    rfl

theorem digitCh_mem (d : Nat) : digitCh d ∈ ("0123456789").data := by
  unfold digitCh
  split <;> decide

theorem natDigits_mem : ∀ n c, c ∈ natDigits n → c ∈ ("0123456789").data := by
  have aux : ∀ fuel n c, n < fuel → c ∈ natDigitsAux fuel n → c ∈ ("0123456789").data := by
    intro fuel
    induction fuel with
    | zero => intro n c h; omega
    | succ k ih =>
      intro n c hlt hmem
      by_cases hn : n < 10
      · simp only [natDigitsAux, hn, if_true, List.mem_singleton] at hmem
        exact hmem ▸ digitCh_mem n
      · have hd : n / 10 < n := Nat.div_lt_self (by omega) (by omega)
        simp only [natDigitsAux, hn, if_false, List.mem_append, List.mem_singleton] at hmem
        rcases hmem with h | h
        · exact ih (n / 10) c (by omega) h
        · exact h ▸ digitCh_mem (n % 10)
  intro n c h
  exact aux (n + 1) n c (Nat.lt_succ_self n) h

theorem digit_utf8Size {c : Char} (h : c ∈ ("0123456789").data) : c.utf8Size = 1 := by
  fin_cases h <;> decide

theorem bsizeL_natDigits (n : Nat) : bsizeL (natDigits n) = dlen n :=
  bsizeL_eq_length _ fun c hc => digit_utf8Size (natDigits_mem n c hc)

theorem dlen_pos (n : Nat) : 1 ≤ dlen n := by
  rw [dlen, natDigits_eq]
  by_cases hn : n < 10 <;> simp [hn]

theorem dlen_lt10 {n : Nat} (h : n < 10) : dlen n = 1 := by
  rw [dlen, natDigits_eq]
  simp [h]

theorem dlen_le : ∀ k n, n < 10 ^ (k + 1) → dlen n ≤ k + 1 := by
  intro k
  induction k with
  | zero =>
    intro n h
    rw [dlen_lt10 (by simpa using h)]
  | succ j ih =>
    intro n h
    by_cases hn : n < 10
    · rw [dlen_lt10 hn]; omega
    · rw [dlen, natDigits_eq]
      simp only [hn, if_false, List.length_append, List.length_singleton]
      have : n / 10 < 10 ^ (j + 1) := by
        rw [Nat.div_lt_iff_lt_mul (by omega)]
        calc n < 10 ^ (j + 1 + 1) := h
        _ = 10 ^ (j + 1) * 10 := by ring
      have := ih (n / 10) this
      rw [dlen] at this
      omega

/-! JSON values as this program builds them: only strings and objects occur (the object
fields are ordered, as JavaScript object keys are). -/

inductive Json where
  | str (s : String)
  | obj (fields : List (String × Json))

/-- Hexadecimal digit character (lower case), as used by unicode escapes. -/
def hexCh (d : Nat) : Char :=
  match d with
  | 10 => 'a'
  | 11 => 'b'
  | 12 => 'c'
  | 13 => 'd'
  | 14 => 'e'
  | 15 => 'f'
  | d => digitCh d

/-- JSON string-character escaping as performed by JSON.stringify. None of the strings
this program serializes contains a character that needs escaping. -/
def escChar (c : Char) : List Char :=
  if c = '\"' then ['\\', '\"']
  else if c = '\\' then ['\\', '\\']
  else if c = '\n' then ['\\', 'n']
  else if c = '\t' then ['\\', 't']
  else if c = '\r' then ['\\', 'r']
  else if c = '\x08' then ['\\', 'b']
  else if c = '\x0c' then ['\\', 'f']
  else if c.toNat < 32 then ['\\', 'u', '0', '0', digitCh (c.toNat / 16), hexCh (c.toNat % 16)]
  else [c]

def escList (l : List Char) : List Char := (l.map escChar).flatten

def spacesL (n : Nat) : List Char := List.replicate n ' '

mutual
/-- Models JSON.stringify(v, null, 2): pretty-printed JSON with two-space indentation.
The argument ind is the indentation column of the value's enclosing field. -/
def jsonStr : Json → Nat → List Char
  | .str s, _ => '\"' :: (escList s.data ++ ['\"'])
  | .obj [], _ => ['\x7b', '\x7d']
  | .obj (f :: fs), ind =>
    '\x7b' :: '\n' :: (jsonFields (f :: fs) (ind + 2) ++ '\n' :: (spacesL ind ++ ['\x7d']))

/-- The comma-and-newline separated field lines of a pretty-printed JSON object. -/
def jsonFields : List (String × Json) → Nat → List Char
  | [], _ => []
  | [(k, v)], ind =>
    spacesL ind ++ ('\"' :: (escList k.data ++ ('\"' :: ':' :: ' ' :: jsonStr v ind)))
  | (k, v) :: f :: fs, ind =>
    (spacesL ind ++ ('\"' :: (escList k.data ++ ('\"' :: ':' :: ' ' :: jsonStr v ind)))) ++
      (',' :: '\n' :: jsonFields (f :: fs) ind)
end

/-- Value string of the node at the given depth, from generateLevelData:
a depth marker followed by a 1000-character padding run. -/
def levelValue (depth : Nat) : List Char :=
  ("Data at depth ").data ++ natDigits depth ++ (": ").data ++ List.replicate 1000 'x'

/-- generateLevelData from the source: one padded node without a nested child. -/
def generateLevelData (depth : Nat) : Json :=
  .obj [(("value"), .str (String.mk (levelValue depth)))]

/-- State of the mutated root in buildToTargetSize: the chain that starts with the node
at depth lo and has n further nested levels below it. -/
def chainFrom (lo : Nat) : Nat → Json
  | 0 => generateLevelData lo
  | n + 1 =>
    .obj [(("value"), .str (String.mk (levelValue lo))), (("nested"), chainFrom (lo + 1) n)]

/-- Serialized byte size of the whole chain of depth d, as measured inside the loop. -/
def jsonSizeAt (d : Nat) : Nat := bsizeL (jsonStr (chainFrom 0 d) 0)

mutual
/-- findDeepestPath from the source: depth-first scan over object-valued fields,
keeping the first path of maximal length. -/
def findDeepestPath : Json → List String → List String
  | .str _, currentPath => currentPath
  | .obj fs, currentPath => findInFields fs currentPath currentPath

/-- The fold over Object.entries inside findDeepestPath, carrying the best path found
so far. -/
def findInFields : List (String × Json) → List String → List String → List String
  | [], _, best => best
  | (k, v) :: rest, currentPath, best =>
    match v with
    | .obj _ =>
      let result := findDeepestPath v (currentPath ++ [k])
      findInFields rest currentPath (if result.length > best.length then result else best)
    | .str _ => findInFields rest currentPath best
end

/-- First field of the given name in an object field list, as JavaScript property
lookup on these objects. -/
def lookupField (k : String) : List (String × Json) → Option Json
  | [] => none
  | (k2, v) :: fs => if k2 = k then some v else lookupField k fs

/-- Follows a chain of field names from a value, as reading a dotted path would. -/
def followPath : Json → List String → Option Json
  | j, [] => some j
  | .obj fs, k :: rest =>
    match lookupField k fs with
    | some v => followPath v rest
    | none => none
  | .str _, _ :: _ => none

/-- The nested child of a value, if any. -/
def jsonNested : Json → Option Json
  | .obj fs => lookupField ("nested") fs
  | .str _ => none

/-- TARGET_BYTES from the source: 98% of the requested size in bytes. -/
def targetBytes (targetSize : ℚ) : ℚ := targetSize * 1024 * 1024 * (98 / 100)

/-- Loop of buildToTargetSize. The root is always a chain and is represented by its
depth; lastValid is the snapshotted pair (lastValidRoot, lastValidDepth), which always
holds equal components. The first argument is recursion fuel; the loop body increments
depth and stops past the hard cap of 100000, so 100002 units always suffice. Returns
the pair (depth of the returned root, returned depth field). -/
def buildToTargetSizeAux (TARGET_BYTES : ℚ) : Nat → Nat → Option Nat → Nat × Nat
  | 0, depth, _ => (depth, depth)
  | fuel + 1, depth, lastValid =>
    if TARGET_BYTES ≤ (jsonSizeAt depth : ℚ) then
      match lastValid with
      | some d => (d, d)
      | none => (depth, depth)
    else
      if depth + 1 > 100000 then (depth + 1, depth + 1)
      else buildToTargetSizeAux TARGET_BYTES fuel (depth + 1) (some depth)

/-- buildToTargetSize from the source (JSON strategy). -/
def buildToTargetSize (TARGET_BYTES : ℚ) : Nat × Nat :=
  buildToTargetSizeAux TARGET_BYTES 100002 0 none

/-- The final JSON root: the chain returned by buildToTargetSize with the deepestPath
string injected as an additional trailing field. -/
def withDeepestPath (d : Nat) (p : String) : Json :=
  match chainFrom 0 d with
  | .obj fs => .obj (fs ++ [(("deepestPath"), .str p)])
  | j => j

/-! YAML documents as built by generateDocument. -/

structure DocMetadata where
  author : String
  tags : List String
  description : String
deriving DecidableEq

structure DocContent where
  title : String
  body : String
  footer : String
deriving DecidableEq

structure DocData where
  field1 : String
  field2 : String
  field3 : String
  metadata : DocMetadata
  content : DocContent
deriving DecidableEq

structure YamlDoc where
  documentId : Nat
  timestamp : String
  data : DocData
  totalDocuments : Option Nat
deriving DecidableEq

/-- Padding run, modelling JavaScript String.prototype.repeat on one character. -/
def repStr (n : Nat) (c : Char) : String := String.mk (List.replicate n c)

/-- generateDocument(docNumber, totalDocs = null) from the source; the timestamp
argument stands for the value of new Date().toISOString() at this call. -/
def generateDocument (docNumber : Nat) (totalDocs : Option Nat) (timestamp : String) :
    YamlDoc :=
  { documentId := docNumber
    timestamp := timestamp
    data :=
      { field1 := "Document " ++ natStr docNumber ++ " - Field 1: " ++ repStr 500 'x'
        field2 := "Document " ++ natStr docNumber ++ " - Field 2: " ++ repStr 500 'y'
        field3 := "Document " ++ natStr docNumber ++ " - Field 3: " ++ repStr 500 'z'
        metadata :=
          { author := "Author " ++ natStr docNumber
            tags := ["tag" ++ natStr docNumber, "category" ++ natStr (docNumber % 10),
              "general"]
            description := "This is document number " ++ natStr docNumber ++
              " with some padding: " ++ repStr 300 'a' }
        content :=
          { title := "Title for document " ++ natStr docNumber
            body := "Body content for document " ++ natStr docNumber ++ ": " ++
              repStr 800 'b'
            footer := "Footer for document " ++ natStr docNumber ++ ": " ++
              repStr 200 'c' } }
    totalDocuments := if docNumber = 1 ∧ totalDocs.isSome then totalDocs else none }

/-- Double-quoted scalar. -/
def dq (l : List Char) : List Char := ['\"'] ++ (l ++ ['\"'])

/-- Lines of the YAML rendering of one document. Models the yaml package's stringify
for the records this program builds: a block mapping with two-space indentation,
string scalars double-quoted on one line each, sequences as block lists. The real
serializer writes short plain scalars unquoted and folds lines longer than 80 columns;
that changes byte counts but no structural fact proved here: every line still ends
with a quote, a digit or a colon, sizes stay strictly monotone in the document count,
and the totalDocuments entry still becomes the final line of the first document. -/
def yamlDocLines (d : YamlDoc) : List (List Char) :=
  [("documentId: ").data ++ natDigits d.documentId,
   ("timestamp: ").data ++ dq d.timestamp.data,
   ("data:").data,
   ("  field1: ").data ++ dq d.data.field1.data,
   ("  field2: ").data ++ dq d.data.field2.data,
   ("  field3: ").data ++ dq d.data.field3.data,
   ("  metadata:").data,
   ("    author: ").data ++ dq d.data.metadata.author.data,
   ("    tags:").data] ++
  (d.data.metadata.tags.map fun t => ("      - ").data ++ dq t.data) ++
  [("    description: ").data ++ dq d.data.metadata.description.data,
   ("  content:").data,
   ("    title: ").data ++ dq d.data.content.title.data,
   ("    body: ").data ++ dq d.data.content.body.data,
   ("    footer: ").data ++ dq d.data.content.footer.data] ++
  (match d.totalDocuments with
   | none => []
   | some n => [("totalDocuments: ").data ++ natDigits n])

/-- Models stringify(doc) from the yaml package applied to one document. -/
def yamlStringify (d : YamlDoc) : List Char :=
  ((yamlDocLines d).map fun l => l ++ ['\n']).flatten

/-- The separator '---' plus newline placed between serialized YAML documents. -/
def yamlSep : List Char := ['-', '-', '-', '\n']

/-- Models documents.map(stringify).join with the document separator. -/
def joinSep : List (List Char) → List Char
  | [] => []
  | [d] => d
  | d :: e :: rest => d ++ (yamlSep ++ joinSep (e :: rest))

/-- Loop of buildYamlDocuments. clock i is the timestamp handed to the i-th call of
generateDocument (JavaScript reads the clock once per generated document). The first
argument is recursion fuel; docNumber grows by one per iteration and the loop stops
past the hard cap of 1000000, so 1000002 units always suffice. Returns the document
list and the final value of docNumber. -/
def buildYamlAux (TARGET_BYTES : ℚ) (clock : Nat → String) :
    Nat → List YamlDoc → Nat → List YamlDoc × Nat
  | 0, documents, docNumber => (documents, docNumber)
  | fuel + 1, documents, docNumber =>
    let docNumber2 := docNumber + 1
    let documents2 := documents ++ [generateDocument docNumber2 none (clock (docNumber2 - 1))]
    if TARGET_BYTES ≤ (bsizeL (joinSep (documents2.map yamlStringify)) : ℚ) then
      (if documents2.length > 1 then documents2.dropLast else documents2, docNumber2)
    else
      if docNumber2 > 1000000 then (documents2, docNumber2)
      else buildYamlAux TARGET_BYTES clock fuel documents2 docNumber2

/-- buildYamlDocuments from the source (YAML strategy). Returns the final document
list, the final count, and the number of loop iterations run (the clock index used by
the closing regeneration of document 1). -/
def buildYamlDocuments (TARGET_BYTES : ℚ) (clock : Nat → String) :
    List YamlDoc × Nat × Nat :=
  let r := buildYamlAux TARGET_BYTES clock 1000002 [] 0
  let finalCount := r.1.length
  (r.1.set 0 (generateDocument 1 (some finalCount) (clock r.2)), finalCount, r.2)

/-- Models format.toLowerCase() for the ASCII format strings involved. -/
def toLowerStr (s : String) : String := String.mk (s.data.map Char.toLower)

/-- Models Number.prototype.toFixed(2) followed by parseFloat: rounding to two
decimal places, taken on exact rationals. -/
def toFixed2 (q : ℚ) : ℚ := (⌊q * 100 + 1 / 2⌋ : ℚ) / 100

/-- Models Array.prototype.join(sep). -/
def joinWith (sep : String) : List String → String
  | [] => ""
  | [s] => s
  | s :: t :: rest => s ++ sep ++ joinWith sep (t :: rest)

/-- Name of the output file, result_<size>MB.<format>; the numeric part of the name
is kept symbolic rather than rendered to decimal text. -/
structure FileName where
  sizeMB : ℚ
  ext : String
deriving DecidableEq

/-- Observable side effects of generateLargeObject in order of occurrence: console
logging and the final file write. Log messages are represented by their structured
contents; the elapsed-time message carries no payload because only its presence
matters. -/
inductive Effect where
  | logGenerating (format : String) (targetSize : ℚ)
  | logGeneratedIn
  | logActualSize (actualSizeMB : ℚ)
  | logDeepestPath (depth : Nat) (path : String)
  | logTotalDocuments (count : Nat)
  | fileWrite (file : FileName) (contents : String)
  | logFileSaved (file : FileName)
deriving DecidableEq

/-- The error thrown when the format argument is not recognized. -/
inductive FormatError where
  | invalidFormat
deriving DecidableEq

/-- The object returned by generateLargeObject. -/
structure GenResult where
  output : String
  deepestPath : String
  depth : Nat
  actualSizeMB : ℚ
  format : String
  fileName : FileName
deriving DecidableEq

/-- generateLargeObject(targetSize, format) from the source. Returns the side-effect
trace in order of occurrence together with the returned value, or the thrown error
with the (empty) trace accumulated up to the throw. -/
def generateLargeObject (targetSize : ℚ) (format : String) (clock : Nat → String) :
    List Effect × Except FormatError GenResult :=
  let TARGET_BYTES := targetBytes targetSize
  if ((["json", "yaml"] : List String).contains (toLowerStr format)) = false then
    ([], .error .invalidFormat)
  else
    let formatLower := toLowerStr format
    if formatLower = "json" then
      let generatedObject := (buildToTargetSize TARGET_BYTES).1
      let deepestPath := findDeepestPath (chainFrom 0 generatedObject) []
      let deepestPathString := "." ++ joinWith (".") deepestPath
      let depth := deepestPath.length
      let finalObject := withDeepestPath generatedObject deepestPathString
      let output := String.mk (jsonStr finalObject 0)
      let actualSizeMB := toFixed2 ((getByteSize output : ℚ) / (1024 * 1024))
      let fileName : FileName := ⟨targetSize, formatLower⟩
      ([.logGenerating formatLower targetSize, .logGeneratedIn,
        .logActualSize actualSizeMB, .logDeepestPath depth deepestPathString,
        .fileWrite fileName output, .logFileSaved fileName],
       .ok { output := output, deepestPath := deepestPathString, depth := depth,
             actualSizeMB := actualSizeMB, format := formatLower, fileName := fileName })
    else
      let r := buildYamlDocuments TARGET_BYTES clock
      let documents := r.1
      let count := r.2.1
      let output := String.mk (joinSep (documents.map yamlStringify))
      let deepestPathString := "Multiple documents (" ++ natStr count ++ " total)"
      let depth := count
      let actualSizeMB := toFixed2 ((getByteSize output : ℚ) / (1024 * 1024))
      let fileName : FileName := ⟨targetSize, formatLower⟩
      ([.logGenerating formatLower targetSize, .logGeneratedIn,
        .logActualSize actualSizeMB, .logTotalDocuments depth,
        .fileWrite fileName output, .logFileSaved fileName],
       .ok { output := output, deepestPath := deepestPathString, depth := depth,
             actualSizeMB := actualSizeMB, format := formatLower, fileName := fileName })

/-! Facts about escaping and serialized sizes. -/

/-- Characters that JSON.stringify copies verbatim. -/
def CleanChar (c : Char) : Prop := c ≠ '\"' ∧ c ≠ '\\' ∧ 31 < c.toNat

instance decCleanChar : DecidablePred CleanChar := fun c => by
  unfold CleanChar; infer_instance

theorem escChar_clean {c : Char} (h : CleanChar c) : escChar c = [c] := by
  obtain ⟨h1, h2, h3⟩ := h
  have e1 : c ≠ '\n' := by intro he; subst he; exact absurd h3 (by decide)
  have e2 : c ≠ '\t' := by intro he; subst he; exact absurd h3 (by decide)
  have e3 : c ≠ '\r' := by intro he; subst he; exact absurd h3 (by decide)
  have e4 : c ≠ '\x08' := by intro he; subst he; exact absurd h3 (by decide)
  have e5 : c ≠ '\x0c' := by intro he; subst he; exact absurd h3 (by decide)
  simp only [escChar, if_neg h1, if_neg h2, if_neg e1, if_neg e2, if_neg e3, if_neg e4,
    if_neg e5, if_neg (by omega : ¬ c.toNat < 32)]

theorem escList_clean {l : List Char} (h : ∀ c ∈ l, CleanChar c) : escList l = l := by
  induction l with
  | nil => rfl
  | cons c t ih =>
    simp only [escList, List.map_cons, List.flatten_cons,
      escChar_clean (h c (List.mem_cons_self c t))]
    simpa using ih fun d hd => h d (List.mem_cons_of_mem c hd)

theorem escList_append (a b : List Char) : escList (a ++ b) = escList a ++ escList b := by
  simp [escList]

theorem clean_digit {c : Char} (h : c ∈ ("0123456789").data) : CleanChar c := by
  fin_cases h <;> decide

theorem escList_natDigits (n : Nat) : escList (natDigits n) = natDigits n :=
  escList_clean fun c hc => clean_digit (natDigits_mem n c hc)

theorem clean_replicate {c : Char} (h : CleanChar c) (n : Nat) :
    escList (List.replicate n c) = List.replicate n c :=
  escList_clean fun d hd => (List.eq_of_mem_replicate hd) ▸ h

theorem bsizeL_spacesL (n : Nat) : bsizeL (spacesL n) = n := by
  have h : (' ').utf8Size = 1 := by decide
  simp [spacesL, bsizeL_replicate, h]

theorem escList_levelValue (d : Nat) : escList (levelValue d) = levelValue d := by
  simp only [levelValue, escList_append, escList_natDigits,
    clean_replicate (by decide : CleanChar 'x'),
    escList_clean (by decide : ∀ c ∈ ("Data at depth ").data, CleanChar c),
    escList_clean (by decide : ∀ c ∈ (": ").data, CleanChar c)]

theorem bsizeL_levelValue (d : Nat) : bsizeL (levelValue d) = 1016 + dlen d := by
  simp only [levelValue, bsizeL_append, bsizeL_natDigits, bsizeL_replicate]
  have h1 : bsizeL (("Data at depth ").data) = 14 := by decide
  have h2 : bsizeL ((": ").data) = 2 := by decide
  have hx : ('x').utf8Size = 1 := by decide
  rw [h1, h2, hx]
  omega

/-- Serialized byte size of the chain starting at depth lo with n further levels,
rendered at enclosing indentation ind. -/
def chainBytes (lo n ind : Nat) : Nat := bsizeL (jsonStr (chainFrom lo n) ind)

theorem chainBytes_leaf (lo ind : Nat) : chainBytes lo 0 ind = 2 * ind + 1033 + dlen lo := by
  have hv : escList (("value").data) = ("value").data := by decide
  simp only [chainBytes, chainFrom, generateLevelData, jsonStr, jsonFields, hv,
    escList_levelValue]
  simp only [bsizeL_cons, bsizeL_append, bsizeL_spacesL, bsizeL_levelValue, bsizeL_nil]
  simp +decide [Char.utf8Size]
  omega

theorem chainBytes_node (lo n ind : Nat) :
    chainBytes lo (n + 1) ind = 3 * ind + 1047 + dlen lo + chainBytes (lo + 1) n (ind + 2) := by
  have hv : escList (("value").data) = ("value").data := by decide
  have hn : escList (("nested").data) = ("nested").data := by decide
  simp only [chainBytes, chainFrom]
  show bsizeL (jsonStr (.obj ((("value"), Json.str (String.mk (levelValue lo))) ::
    (("nested"), chainFrom (lo + 1) n) :: [])) ind) = _
  simp only [jsonStr, jsonFields, hv, hn, escList_levelValue]
  simp only [bsizeL_cons, bsizeL_append, bsizeL_spacesL, bsizeL_levelValue, bsizeL_nil]
  simp +decide [Char.utf8Size]
  show _ = 3 * ind + 1047 + dlen lo + bsizeL (jsonStr (chainFrom (lo + 1) n) (ind + 2))
  omega

theorem jsonSizeAt_eq (d : Nat) : jsonSizeAt d = chainBytes 0 d 0 := rfl

theorem jsonSizeAt_zero : jsonSizeAt 0 = 1034 := by
  rw [jsonSizeAt_eq, chainBytes_leaf, dlen_lt10 (by omega)]

theorem chainBytes_delta : ∀ n lo ind,
    chainBytes lo (n + 1) ind =
      chainBytes lo n ind + 3 * ind + 6 * n + 1051 + dlen (lo + n + 1) := by
  intro n
  induction n with
  | zero =>
    intro lo ind
    rw [chainBytes_node, chainBytes_leaf, chainBytes_leaf]
    have : lo + 0 + 1 = lo + 1 := by omega
    rw [this]
    omega
  | succ m ih =>
    intro lo ind
    rw [chainBytes_node, ih (lo + 1) (ind + 2), chainBytes_node]
    have : lo + 1 + m + 1 = lo + (m + 1) + 1 := by omega
    rw [this]
    omega

theorem jsonSizeAt_succ (d : Nat) :
    jsonSizeAt (d + 1) = jsonSizeAt d + 6 * d + 1051 + dlen (d + 1) := by
  have h := chainBytes_delta d 0 0
  simp only [Nat.zero_add, Nat.mul_zero, Nat.add_zero] at h
  rw [jsonSizeAt_eq, jsonSizeAt_eq, h]

theorem jsonSizeAt_lower (d : Nat) : 1034 + 1048 * d ≤ jsonSizeAt d := by
  induction d with
  | zero => rw [jsonSizeAt_zero]
  | succ m ih =>
    have h := jsonSizeAt_succ m
    have hp := dlen_pos (m + 1)
    omega

theorem jsonSizeAt_upper (d : Nat) (hd : d ≤ 1000000) :
    jsonSizeAt d ≤ 1034 + d * (6 * d + 1058) := by
  induction d with
  | zero => rw [jsonSizeAt_zero]
  | succ m ih =>
    have h := jsonSizeAt_succ m
    have h7 : dlen (m + 1) ≤ 7 := dlen_le 6 (m + 1) (by omega)
    have ihm := ih (by omega)
    have expand : 1034 + (m + 1) * (6 * (m + 1) + 1058) =
        1034 + m * (6 * m + 1058) + 12 * m + 1064 := by ring
    omega

/-- The dotted deepest-path string reported for a chain of depth d. -/
def pathStrOf (d : Nat) : String := "." ++ joinWith (".") (List.replicate d ("nested"))

theorem joinWith_one (sep : String) (s : String) : joinWith sep [s] = s := rfl

theorem joinWith_two (sep : String) (s t : String) (rest : List String) :
    joinWith sep (s :: t :: rest) = s ++ sep ++ joinWith sep (t :: rest) := rfl

theorem path_mem : ∀ d c, c ∈ (pathStrOf d).data → c ∈ (".nested").data := by
  have hn : ∀ x ∈ ("nested").data, x ∈ (".nested").data := by decide
  have hd : ∀ x ∈ (".").data, x ∈ (".nested").data := by decide
  have aux : ∀ d c, c ∈ (joinWith (".") (List.replicate d ("nested"))).data →
      c ∈ (".nested").data := by
    intro d
    induction d with
    | zero => intro c h; simp [joinWith] at h
    | succ m ih =>
      intro c h
      match m, ih with
      | 0, _ => exact hn c h
      | k + 1, ih =>
        rw [List.replicate_succ, List.replicate_succ, joinWith_two,
          ← List.replicate_succ] at h
        simp only [String.data_append, List.mem_append] at h
        rcases h with (h | h) | h
        · exact hn c h
        · exact hd c h
        · exact ih c h
  intro d c h
  simp only [pathStrOf, String.data_append, List.mem_append] at h
  rcases h with h | h
  · exact hd c h
  · exact aux d c h

theorem path_clean (d : Nat) : escList ((pathStrOf d).data) = (pathStrOf d).data :=
  escList_clean fun c hc => by
    have hall : ∀ x ∈ (".nested").data, CleanChar x := by decide
    exact hall c (path_mem d c hc)

theorem pathBytes : ∀ d, bsizeL ((pathStrOf d).data) = if d = 0 then 1 else 7 * d := by
  have aux : ∀ d, bsizeL ((joinWith (".") (List.replicate (d + 1) ("nested"))).data) =
      7 * (d + 1) - 1 := by
    intro d
    induction d with
    | zero => decide
    | succ m ih =>
      rw [List.replicate_succ, List.replicate_succ, joinWith_two, ← List.replicate_succ]
      simp only [String.data_append, bsizeL_append, ih]
      have h1 : bsizeL (("nested").data) = 6 := by decide
      have h2 : bsizeL ((".").data) = 1 := by decide
      rw [h1, h2]
      omega
  intro d
  match d with
  | 0 => decide
  | n + 1 =>
    simp only [pathStrOf, String.data_append, bsizeL_append, aux n]
    have h2 : bsizeL ((".").data) = 1 := by decide
    rw [h2, if_neg (by omega : ¬ n + 1 = 0)]
    omega

theorem data_mk (l : List Char) : (String.mk l).data = l := rfl

theorem getByteSize_mk (l : List Char) : getByteSize (String.mk l) = bsizeL l := rfl

theorem withDeepestPath_zero (p : String) :
    withDeepestPath 0 p =
      .obj [(("value"), .str (String.mk (levelValue 0))), (("deepestPath"), .str p)] := rfl

theorem withDeepestPath_succ (n : Nat) (p : String) :
    withDeepestPath (n + 1) p =
      .obj [(("value"), .str (String.mk (levelValue 0))), (("nested"), chainFrom 1 n),
        (("deepestPath"), .str p)] := rfl

theorem outBytes_eq (d : Nat) (p : String) (hp : escList p.data = p.data) :
    bsizeL (jsonStr (withDeepestPath d p) 0) = jsonSizeAt d + 21 + bsizeL p.data := by
  have hv : escList (("value").data) = ("value").data := by decide
  have hdp : escList (("deepestPath").data) = ("deepestPath").data := by decide
  have hn : escList (("nested").data) = ("nested").data := by decide
  match d with
  | 0 =>
    rw [withDeepestPath_zero]
    simp only [jsonStr, jsonFields, hp, hv, hdp, data_mk, escList_levelValue]
    simp only [bsizeL_cons, bsizeL_append, bsizeL_spacesL, bsizeL_levelValue, bsizeL_nil]
    simp +decide [Char.utf8Size]
    rw [jsonSizeAt_zero, dlen_lt10 (by omega)]
    omega
  | n + 1 =>
    rw [withDeepestPath_succ]
    simp only [jsonStr, jsonFields, hp, hv, hdp, hn, data_mk, escList_levelValue]
    simp only [bsizeL_cons, bsizeL_append, bsizeL_spacesL, bsizeL_levelValue, bsizeL_nil]
    simp +decide [Char.utf8Size]
    rw [jsonSizeAt_eq, chainBytes_node]
    simp only [chainBytes, Nat.zero_add, dlen_lt10 (by omega : (0 : Nat) < 10)]
    omega

theorem buildToTargetSizeAux_succ (T : ℚ) (fuel depth : Nat) (lv : Option Nat) :
    buildToTargetSizeAux T (fuel + 1) depth lv =
      if T ≤ (jsonSizeAt depth : ℚ) then
        (match lv with
         | some d => (d, d)
         | none => (depth, depth))
      else if depth + 1 > 100000 then (depth + 1, depth + 1)
      else buildToTargetSizeAux T fuel (depth + 1) (some depth) := rfl

theorem buildToTargetSize_eq (T : ℚ) :
    buildToTargetSize T = buildToTargetSizeAux T (100001 + 1) 0 none := rfl

theorem buildToTargetSize_min (T : ℚ) (h : T ≤ (jsonSizeAt 0 : ℚ)) :
    buildToTargetSize T = (0, 0) := by
  rw [buildToTargetSize_eq, buildToTargetSizeAux_succ, if_pos h]

theorem buildAux_go (T : ℚ) : ∀ fuel depth, fuel + depth = 100002 → 1 ≤ depth →
    depth ≤ 100000 → ((jsonSizeAt (depth - 1) : ℚ) < T) →
    (∃ r, depth - 1 ≤ r ∧ r + 1 ≤ 100000 ∧
        buildToTargetSizeAux T fuel depth (some (depth - 1)) = (r, r) ∧
        (jsonSizeAt r : ℚ) < T ∧ T ≤ (jsonSizeAt (r + 1) : ℚ)) ∨
      (buildToTargetSizeAux T fuel depth (some (depth - 1)) = (100001, 100001) ∧
        (jsonSizeAt 100000 : ℚ) < T) := by
  intro fuel
  induction fuel with
  | zero => intro depth h _ _ _; omega
  | succ f ih =>
    intro depth hfd h1 h100 hprev
    rw [buildToTargetSizeAux_succ]
    by_cases hT : T ≤ (jsonSizeAt depth : ℚ)
    · rw [if_pos hT]
      left
      refine ⟨depth - 1, le_refl _, by omega, rfl, hprev, ?_⟩
      have hd : depth - 1 + 1 = depth := by omega
      rw [hd]
      exact hT
    · rw [if_neg hT]
      by_cases hcap : depth + 1 > 100000
      · rw [if_pos hcap]
        right
        have hdep : depth = 100000 := by omega
        subst hdep
        exact ⟨rfl, lt_of_not_le hT⟩
      · rw [if_neg hcap]
        have hrec := ih (depth + 1) (by omega) (by omega) (by omega)
          (by simpa using lt_of_not_le hT)
        simp only [Nat.add_sub_cancel] at hrec
        rcases hrec with ⟨r, hr1, hr2, he, hs1, hs2⟩ | ⟨he, hs⟩
        · left; exact ⟨r, by omega, hr2, he, hs1, hs2⟩
        · right; exact ⟨he, hs⟩

theorem buildToTargetSize_spec (T : ℚ) (h0 : (jsonSizeAt 0 : ℚ) < T) :
    (∃ r, r + 1 ≤ 100000 ∧ buildToTargetSize T = (r, r) ∧ (jsonSizeAt r : ℚ) < T ∧
      T ≤ (jsonSizeAt (r + 1) : ℚ)) ∨
    (buildToTargetSize T = (100001, 100001) ∧ (jsonSizeAt 100000 : ℚ) < T) := by
  rw [buildToTargetSize_eq, buildToTargetSizeAux_succ, if_neg (not_le.mpr h0),
    if_neg (by omega : ¬ (0 : Nat) + 1 > 100000)]
  have hrec := buildAux_go T 100001 1 (by omega) (by omega) (by omega) (by simpa using h0)
  simpa using hrec

theorem buildToTargetSize_cap (T : ℚ) (h : ∀ d, d ≤ 100000 → (jsonSizeAt d : ℚ) < T) :
    buildToTargetSize T = (100001, 100001) := by
  rcases buildToTargetSize_spec T (h 0 (by omega)) with ⟨r, hr, he, _, hs2⟩ | ⟨he, _⟩
  · exact absurd hs2 (not_le.mpr (h (r + 1) (by omega)))
  · exact he

theorem chainFrom_obj : ∀ n lo, ∃ fs, chainFrom lo n = Json.obj fs := by
  intro n lo
  match n with
  | 0 => exact ⟨_, rfl⟩
  | k + 1 => exact ⟨_, rfl⟩

theorem findDeepestPath_chain : ∀ n lo p,
    findDeepestPath (chainFrom lo n) p = p ++ List.replicate n ("nested") := by
  intro n
  induction n with
  | zero =>
    intro lo p
    show findInFields [(("value"), Json.str (String.mk (levelValue lo)))] p p = _
    show findInFields [] p p = _
    show p = p ++ []
    simp
  | succ m ih =>
    intro lo p
    obtain ⟨fs, hfs⟩ := chainFrom_obj m (lo + 1)
    show findInFields [(("value"), Json.str (String.mk (levelValue lo))),
      (("nested"), chainFrom (lo + 1) m)] p p = _
    show findInFields [(("nested"), chainFrom (lo + 1) m)] p p = _
    rw [hfs]
    show findInFields [] p
      (if (findDeepestPath (Json.obj fs) (p ++ [("nested")])).length > p.length then
        findDeepestPath (Json.obj fs) (p ++ [("nested")]) else p) = _
    rw [← hfs, ih]
    have hlen : (p ++ [("nested")] ++ List.replicate m ("nested")).length > p.length := by
      simp
    rw [if_pos hlen]
    show p ++ [("nested")] ++ List.replicate m ("nested") = _
    rw [List.append_assoc, List.replicate_succ]
    rfl

theorem followPath_chain : ∀ n lo,
    followPath (chainFrom lo n) (List.replicate n ("nested")) =
      some (generateLevelData (lo + n)) := by
  intro n
  induction n with
  | zero => intro lo; rfl
  | succ m ih =>
    intro lo
    rw [List.replicate_succ]
    show followPath (chainFrom (lo + 1) m) (List.replicate m ("nested")) = _
    rw [ih]
    have h : lo + 1 + m = lo + (m + 1) := by omega
    rw [h]

theorem followPath_final (d : Nat) (p : String) :
    ∃ leaf, followPath (withDeepestPath d p) (List.replicate d ("nested")) = some leaf ∧
      jsonNested leaf = none := by
  match d with
  | 0 =>
    refine ⟨withDeepestPath 0 p, rfl, ?_⟩
    rw [withDeepestPath_zero]
    rfl
  | n + 1 =>
    refine ⟨generateLevelData (n + 1), ?_, rfl⟩
    rw [withDeepestPath_succ, List.replicate_succ]
    show followPath (chainFrom 1 n) (List.replicate n ("nested")) = _
    rw [followPath_chain]
    have h : 1 + n = n + 1 := by omega
    rw [h]

/-- Depth of the chain returned by buildToTargetSize for target size t. -/
def jsonDepthOf (t : ℚ) : Nat := (buildToTargetSize (targetBytes t)).1

/-- The final JSON root of a run: the returned chain extended with deepestPath. -/
def jsonFinalObject (t : ℚ) : Json :=
  withDeepestPath (jsonDepthOf t) (pathStrOf (jsonDepthOf t))

/-- The output string of a JSON run. -/
def jsonOutput (t : ℚ) : String := String.mk (jsonStr (jsonFinalObject t) 0)

theorem generateLargeObject_json (t : ℚ) (clock : Nat → String) :
    generateLargeObject t ("json") clock =
      ([.logGenerating ("json") t, .logGeneratedIn,
        .logActualSize (toFixed2 ((getByteSize (jsonOutput t) : ℚ) / (1024 * 1024))),
        .logDeepestPath (jsonDepthOf t) (pathStrOf (jsonDepthOf t)),
        .fileWrite ⟨t, ("json")⟩ (jsonOutput t), .logFileSaved ⟨t, ("json")⟩],
       .ok { output := jsonOutput t, deepestPath := pathStrOf (jsonDepthOf t),
             depth := jsonDepthOf t,
             actualSizeMB := toFixed2 ((getByteSize (jsonOutput t) : ℚ) / (1024 * 1024)),
             format := ("json"), fileName := ⟨t, ("json")⟩ }) := by
  have hfd : findDeepestPath (chainFrom 0 (jsonDepthOf t)) [] =
      List.replicate (jsonDepthOf t) ("nested") := by
    simpa using findDeepestPath_chain (jsonDepthOf t) 0 []
  have step : generateLargeObject t ("json") clock =
      ([.logGenerating ("json") t, .logGeneratedIn,
        .logActualSize (toFixed2 ((getByteSize (String.mk (jsonStr (withDeepestPath
          (jsonDepthOf t) ("." ++ joinWith (".")
            (findDeepestPath (chainFrom 0 (jsonDepthOf t)) []))) 0)) : ℚ) / (1024 * 1024))),
        .logDeepestPath (findDeepestPath (chainFrom 0 (jsonDepthOf t)) []).length
          ("." ++ joinWith (".") (findDeepestPath (chainFrom 0 (jsonDepthOf t)) [])),
        .fileWrite ⟨t, ("json")⟩ (String.mk (jsonStr (withDeepestPath (jsonDepthOf t)
          ("." ++ joinWith (".") (findDeepestPath (chainFrom 0 (jsonDepthOf t)) []))) 0)),
        .logFileSaved ⟨t, ("json")⟩],
       .ok { output := String.mk (jsonStr (withDeepestPath (jsonDepthOf t)
               ("." ++ joinWith (".") (findDeepestPath (chainFrom 0 (jsonDepthOf t)) []))) 0),
             deepestPath := "." ++ joinWith (".")
               (findDeepestPath (chainFrom 0 (jsonDepthOf t)) []),
             depth := (findDeepestPath (chainFrom 0 (jsonDepthOf t)) []).length,
             actualSizeMB := toFixed2 ((getByteSize (String.mk (jsonStr (withDeepestPath
               (jsonDepthOf t) ("." ++ joinWith (".")
                 (findDeepestPath (chainFrom 0 (jsonDepthOf t)) []))) 0)) : ℚ) / (1024 * 1024)),
             format := ("json"), fileName := ⟨t, ("json")⟩ }) := rfl
  rw [step, hfd]
  simp only [List.length_replicate]
  rfl

/-- Models String.prototype.split(".") at the character level: greedy left-to-right
splitting; acc carries the piece being read, reversed. -/
def dotSplitGo (acc : List Char) : List Char → List (List Char)
  | [] => [acc.reverse]
  | c :: rest =>
    if c = '.' then acc.reverse :: dotSplitGo [] rest else dotSplitGo (c :: acc) rest

/-- The nonempty dot-separated field-name components of a string. -/
def dotFieldNames (s : String) : List String :=
  ((dotSplitGo [] s.data).filter (fun l => !l.isEmpty)).map String.mk

theorem dotSplitGo_word : ∀ word acc, ('.') ∉ word →
    dotSplitGo acc word = [acc.reverse ++ word] := by
  intro word
  induction word with
  | nil => intro acc h; simp [dotSplitGo]
  | cons c w ih =>
    intro acc h
    have hc : ¬ c = '.' := fun he => h (he ▸ List.mem_cons_self c w)
    simp only [dotSplitGo, if_neg hc]
    rw [ih (c :: acc) fun hm => h (List.mem_cons_of_mem c hm)]
    simp

theorem dotSplitGo_sep : ∀ word rest acc, ('.') ∉ word →
    dotSplitGo acc (word ++ ('.') :: rest) =
      (acc.reverse ++ word) :: dotSplitGo [] rest := by
  intro word
  induction word with
  | nil =>
    intro rest acc h
    simp [dotSplitGo]
  | cons c w ih =>
    intro rest acc h
    have hc : ¬ c = '.' := fun he => h (he ▸ List.mem_cons_self c w)
    simp only [List.cons_append, dotSplitGo, if_neg hc]
    show dotSplitGo (c :: acc) (w ++ ('.') :: rest) = _
    rw [ih rest (c :: acc) fun hm => h (List.mem_cons_of_mem c hm)]
    simp

theorem dotSplit_join : ∀ d, dotSplitGo []
    ((joinWith (".") (List.replicate (d + 1) ("nested"))).data) =
      List.replicate (d + 1) (("nested").data) := by
  intro d
  induction d with
  | zero =>
    show dotSplitGo [] (("nested").data) = [("nested").data]
    rw [dotSplitGo_word (("nested").data) [] (by decide)]
    rfl
  | succ m ih =>
    rw [List.replicate_succ, List.replicate_succ, joinWith_two, ← List.replicate_succ]
    simp only [String.data_append, List.append_assoc]
    show dotSplitGo [] (("nested").data ++ (('.') ::
      (joinWith (".") (List.replicate (m + 1) ("nested"))).data)) = _
    rw [dotSplitGo_sep _ _ [] (by decide), ih]
    rw [List.replicate_succ ("nested").data (m + 1)]
    rfl

theorem dotFieldNames_path (d : Nat) :
    dotFieldNames (pathStrOf d) = List.replicate d ("nested") := by
  match d with
  | 0 => rfl
  | n + 1 =>
    unfold dotFieldNames
    have hdata : (pathStrOf (n + 1)).data =
        ('.') :: (joinWith (".") (List.replicate (n + 1) ("nested"))).data := rfl
    rw [hdata]
    show ((([] : List Char).reverse :: dotSplitGo []
      ((joinWith (".") (List.replicate (n + 1) ("nested"))).data)).filter
        (fun l => !l.isEmpty)).map String.mk = _
    rw [dotSplit_join n]
    simp only [List.reverse_nil, List.filter_cons]
    show ((List.replicate (n + 1) (("nested").data)).filter (fun l => !l.isEmpty)).map
      String.mk = _
    rw [List.filter_replicate]
    simp

theorem jsonOutput_bytes (t : ℚ) :
    getByteSize (jsonOutput t) =
      jsonSizeAt (jsonDepthOf t) + 21 + bsizeL ((pathStrOf (jsonDepthOf t)).data) :=
  outBytes_eq (jsonDepthOf t) (pathStrOf (jsonDepthOf t)) (path_clean _)

theorem jsonSizeAt_lt_succ (d : Nat) : jsonSizeAt d < jsonSizeAt (d + 1) := by
  have h := jsonSizeAt_succ d
  have hp := dlen_pos (d + 1)
  omega

theorem jsonDepthOf_min (t : ℚ) (h : targetBytes t ≤ (jsonSizeAt 0 : ℚ)) :
    jsonDepthOf t = 0 := by
  unfold jsonDepthOf
  rw [buildToTargetSize_min _ h]

theorem capBound_helper (A B : Nat) (TT : ℚ)
    (hQ : ((A + 21 + 7 * 100001 : Nat) : ℚ) ≤ (B : ℚ) + 1301086)
    (hlowQ : (1034 + 1048 * 100000 : ℚ) ≤ (B : ℚ)) (hs : (B : ℚ) < TT) :
    ((A + 21 + 7 * 100001 : Nat) : ℚ) ≤ 50 / 49 * TT := by
  linarith only [hQ, hlowQ, hs]

theorem json_bound (t : ℚ) (h1 : (jsonSizeAt 1 : ℚ) < targetBytes t) :
    (getByteSize (jsonOutput t) : ℚ) ≤ t * 1024 * 1024 := by
  have h0 : (jsonSizeAt 0 : ℚ) < targetBytes t :=
    lt_of_le_of_lt (by exact_mod_cast Nat.le_of_lt (jsonSizeAt_lt_succ 0)) h1
  have hTt : t * 1024 * 1024 = (50 / 49) * targetBytes t := by unfold targetBytes; ring
  rcases buildToTargetSize_spec (targetBytes t) h0 with ⟨r, hr1, he, hs1, hs2⟩ | ⟨he, hs⟩
  · have hd : jsonDepthOf t = r := by unfold jsonDepthOf; rw [he]
    have hr0 : 1 ≤ r := by
      by_contra hcon
      have hr : r = 0 := by omega
      subst hr
      norm_num at hs2
      exact absurd hs2 (not_le.mpr h1)
    have hlow : (1034 + 1048 * (r : ℚ)) ≤ (jsonSizeAt r : ℚ) := by
      exact_mod_cast jsonSizeAt_lower r
    have hout : getByteSize (jsonOutput t) = jsonSizeAt r + 21 + 7 * r := by
      rw [jsonOutput_bytes, hd, pathBytes, if_neg (by omega)]
    rw [hout, hTt]
    have hrQ : (1 : ℚ) ≤ (r : ℚ) := by exact_mod_cast hr0
    push_cast
    linarith
  · have hd : jsonDepthOf t = 100001 := by unfold jsonDepthOf; rw [he]
    have hout : getByteSize (jsonOutput t) = jsonSizeAt 100001 + 21 + 7 * 100001 := by
      rw [jsonOutput_bytes, hd, pathBytes, if_neg (by omega)]
    have hsucc := jsonSizeAt_succ 100000
    have he1 : (100000 : Nat) + 1 = 100001 := rfl
    have he2 : 6 * 100000 = 600000 := rfl
    rw [he1, he2] at hsucc
    have hdl : dlen 100001 ≤ 7 := dlen_le 6 100001 (by norm_num)
    have hlowN := jsonSizeAt_lower 100000
    rw [hout, hTt]
    generalize hA : jsonSizeAt 100001 = A at hsucc ⊢
    generalize hB : jsonSizeAt 100000 = B at hsucc hlowN hs
    generalize hD : dlen 100001 = D at hsucc hdl
    have hupN : A + 21 + 7 * 100001 ≤ B + 1301086 := by omega
    have hQ : ((A + 21 + 7 * 100001 : Nat) : ℚ) ≤ (B : ℚ) + 1301086 := by
      exact_mod_cast hupN
    have hlowQ : (1034 + 1048 * 100000 : ℚ) ≤ (B : ℚ) := by exact_mod_cast hlowN
    generalize hT : targetBytes t = TT at hs ⊢
    exact capBound_helper A B TT hQ hlowQ hs

/-! YAML side: provisional documents, serialized sizes and the fan-out loop. -/

/-- The provisional document list after n loop iterations (document i+1 carries the
i-th clock reading and no totalDocuments entry). -/
def provDocs (clock : Nat → String) (n : Nat) : List YamlDoc :=
  (List.range n).map fun i => generateDocument (i + 1) none (clock i)

theorem provDocs_length (clock : Nat → String) (n : Nat) :
    (provDocs clock n).length = n := by simp [provDocs]

theorem provDocs_succ (clock : Nat → String) (n : Nat) :
    provDocs clock (n + 1) =
      provDocs clock n ++ [generateDocument (n + 1) none (clock n)] := by
  simp [provDocs, List.range_succ]

theorem provDocs_ne_nil (clock : Nat → String) (n : Nat) (h : 1 ≤ n) :
    provDocs clock n ≠ [] := by
  intro he
  have := provDocs_length clock n
  rw [he] at this
  simp at this
  omega

/-- Byte size of the joined serialization of the provisional documents. -/
def ySizeP (clock : Nat → String) (n : Nat) : Nat :=
  bsizeL (joinSep ((provDocs clock n).map yamlStringify))

theorem joinSep_cons2 (a b : List Char) (rest : List (List Char)) :
    joinSep (a :: b :: rest) = a ++ (yamlSep ++ joinSep (b :: rest)) := rfl

theorem joinSep_snoc : ∀ ds d, ds ≠ ([] : List (List Char)) →
    joinSep (ds ++ [d]) = joinSep ds ++ (yamlSep ++ d) := by
  intro ds
  induction ds with
  | nil => intro d h; cases h rfl
  | cons a rest ih =>
    intro d h
    match rest with
    | [] => rfl
    | b :: rest2 =>
      show joinSep (a :: ((b :: rest2) ++ [d])) = _
      rw [show (b :: rest2) ++ [d] = b :: (rest2 ++ [d]) from rfl]
      rw [joinSep_cons2]
      rw [show b :: (rest2 ++ [d]) = (b :: rest2) ++ [d] from rfl]
      rw [ih d (by simp), joinSep_cons2]
      simp [List.append_assoc]

theorem bsizeL_yamlSep : bsizeL yamlSep = 4 := by decide

theorem ySizeP_succ (clock : Nat → String) (n : Nat) (h : 1 ≤ n) :
    ySizeP clock (n + 1) = ySizeP clock n + 4 +
      bsizeL (yamlStringify (generateDocument (n + 1) none (clock n))) := by
  unfold ySizeP
  rw [provDocs_succ, List.map_append, List.map_singleton,
    joinSep_snoc _ _ (by
      intro he
      exact provDocs_ne_nil clock n h (List.map_eq_nil_iff.mp he)),
    bsizeL_append, bsizeL_append, bsizeL_yamlSep]
  omega

theorem generateDocument_totalDocuments_none (n : Nat) (ts : String) :
    (generateDocument n none ts).totalDocuments = none := by
  simp [generateDocument]

theorem yamlStringify_bytes_none (n : Nat) (ts : String) :
    bsizeL (yamlStringify (generateDocument n none ts)) =
      3217 + 10 * dlen n + bsizeL ts.data := by
  have hc : dlen (n % 10) = 1 := dlen_lt10 (Nat.mod_lt n (by omega))
  have hseg0 : bsizeL (("documentId: ").data) = 12 := by decide
  have hseg1 : bsizeL (("timestamp: ").data) = 11 := by decide
  have hseg2 : bsizeL (("data:").data) = 5 := by decide
  have hseg3 : bsizeL (("  field1: ").data) = 10 := by decide
  have hseg4 : bsizeL (("  field2: ").data) = 10 := by decide
  have hseg5 : bsizeL (("  field3: ").data) = 10 := by decide
  have hseg6 : bsizeL (("  metadata:").data) = 11 := by decide
  have hseg7 : bsizeL (("    author: ").data) = 12 := by decide
  have hseg8 : bsizeL (("    tags:").data) = 9 := by decide
  have hseg9 : bsizeL (("      - ").data) = 8 := by decide
  have hseg10 : bsizeL (("    description: ").data) = 17 := by decide
  have hseg11 : bsizeL (("  content:").data) = 10 := by decide
  have hseg12 : bsizeL (("    title: ").data) = 11 := by decide
  have hseg13 : bsizeL (("    body: ").data) = 10 := by decide
  have hseg14 : bsizeL (("    footer: ").data) = 12 := by decide
  have hseg15 : bsizeL (("Document ").data) = 9 := by decide
  have hseg16 : bsizeL ((" - Field 1: ").data) = 12 := by decide
  have hseg17 : bsizeL ((" - Field 2: ").data) = 12 := by decide
  have hseg18 : bsizeL ((" - Field 3: ").data) = 12 := by decide
  have hseg19 : bsizeL (("Author ").data) = 7 := by decide
  have hseg20 : bsizeL (("tag").data) = 3 := by decide
  have hseg21 : bsizeL (("category").data) = 8 := by decide
  have hseg22 : bsizeL (("general").data) = 7 := by decide
  have hseg23 : bsizeL (("This is document number ").data) = 24 := by decide
  have hseg24 : bsizeL ((" with some padding: ").data) = 20 := by decide
  have hseg25 : bsizeL (("Title for document ").data) = 19 := by decide
  have hseg26 : bsizeL (("Body content for document ").data) = 26 := by decide
  have hseg27 : bsizeL ((": ").data) = 2 := by decide
  have hseg28 : bsizeL (("Footer for document ").data) = 20 := by decide
  have hq : bsizeL [('\"')] = 1 := by decide
  have hnl : bsizeL [('\n')] = 1 := by decide
  have hx : ('x').utf8Size = 1 := by decide
  have hy : ('y').utf8Size = 1 := by decide
  have hz : ('z').utf8Size = 1 := by decide
  have ha : ('a').utf8Size = 1 := by decide
  have hb : ('b').utf8Size = 1 := by decide
  have hcc : ('c').utf8Size = 1 := by decide
  simp only [yamlStringify, yamlDocLines, generateDocument_totalDocuments_none, dq,
    generateDocument]
  simp only [ite_self, List.map_cons, List.map_nil, List.map_append, List.flatten_cons,
    List.flatten_nil, List.flatten_append, List.append_nil, List.nil_append,
    String.data_append, data_mk, natStr, repStr]
  simp only [bsizeL_append, bsizeL_natDigits, bsizeL_replicate, bsizeL_nil]
  rw [hseg0, hseg1, hseg2, hseg3, hseg4, hseg5, hseg6, hseg7, hseg8, hseg9, hseg10,
    hseg11, hseg12, hseg13, hseg14, hseg15, hseg16, hseg17, hseg18, hseg19, hseg20,
    hseg21, hseg22, hseg23, hseg24, hseg25, hseg26, hseg27, hseg28, hq, hnl, hx, hy,
    hz, ha, hb, hcc, hc]
  omega

theorem yamlStringify_bytes_some (N : Nat) (ts : String) :
    bsizeL (yamlStringify (generateDocument 1 (some N) ts)) =
      3244 + dlen N + bsizeL ts.data := by
  have hc : dlen ((1 : Nat) % 10) = 1 := dlen_lt10 (by omega)
  have h1 : dlen 1 = 1 := dlen_lt10 (by omega)
  have hsegT : bsizeL (("totalDocuments: ").data) = 16 := by decide
  have hseg0 : bsizeL (("documentId: ").data) = 12 := by decide
  have hseg1 : bsizeL (("timestamp: ").data) = 11 := by decide
  have hseg2 : bsizeL (("data:").data) = 5 := by decide
  have hseg3 : bsizeL (("  field1: ").data) = 10 := by decide
  have hseg4 : bsizeL (("  field2: ").data) = 10 := by decide
  have hseg5 : bsizeL (("  field3: ").data) = 10 := by decide
  have hseg6 : bsizeL (("  metadata:").data) = 11 := by decide
  have hseg7 : bsizeL (("    author: ").data) = 12 := by decide
  have hseg8 : bsizeL (("    tags:").data) = 9 := by decide
  have hseg9 : bsizeL (("      - ").data) = 8 := by decide
  have hseg10 : bsizeL (("    description: ").data) = 17 := by decide
  have hseg11 : bsizeL (("  content:").data) = 10 := by decide
  have hseg12 : bsizeL (("    title: ").data) = 11 := by decide
  have hseg13 : bsizeL (("    body: ").data) = 10 := by decide
  have hseg14 : bsizeL (("    footer: ").data) = 12 := by decide
  have hseg15 : bsizeL (("Document ").data) = 9 := by decide
  have hseg16 : bsizeL ((" - Field 1: ").data) = 12 := by decide
  have hseg17 : bsizeL ((" - Field 2: ").data) = 12 := by decide
  have hseg18 : bsizeL ((" - Field 3: ").data) = 12 := by decide
  have hseg19 : bsizeL (("Author ").data) = 7 := by decide
  have hseg20 : bsizeL (("tag").data) = 3 := by decide
  have hseg21 : bsizeL (("category").data) = 8 := by decide
  have hseg22 : bsizeL (("general").data) = 7 := by decide
  have hseg23 : bsizeL (("This is document number ").data) = 24 := by decide
  have hseg24 : bsizeL ((" with some padding: ").data) = 20 := by decide
  have hseg25 : bsizeL (("Title for document ").data) = 19 := by decide
  have hseg26 : bsizeL (("Body content for document ").data) = 26 := by decide
  have hseg27 : bsizeL ((": ").data) = 2 := by decide
  have hseg28 : bsizeL (("Footer for document ").data) = 20 := by decide
  have hq : bsizeL [('\"')] = 1 := by decide
  have hnl : bsizeL [('\n')] = 1 := by decide
  have hx : ('x').utf8Size = 1 := by decide
  have hy : ('y').utf8Size = 1 := by decide
  have hz : ('z').utf8Size = 1 := by decide
  have ha : ('a').utf8Size = 1 := by decide
  have hb : ('b').utf8Size = 1 := by decide
  have hcc : ('c').utf8Size = 1 := by decide
  simp only [yamlStringify, yamlDocLines, dq, generateDocument]
  simp only [Option.isSome_some, and_true, if_pos, eq_self_iff_true, if_true,
    List.map_cons, List.map_nil, List.map_append, List.flatten_cons,
    List.flatten_nil, List.flatten_append, List.append_nil, List.nil_append,
    String.data_append, data_mk, natStr, repStr]
  simp only [bsizeL_append, bsizeL_natDigits, bsizeL_replicate, bsizeL_nil]
  rw [hseg0, hseg1, hseg2, hseg3, hseg4, hseg5, hseg6, hseg7, hseg8, hseg9, hseg10,
    hseg11, hseg12, hseg13, hseg14, hseg15, hseg16, hseg17, hseg18, hseg19, hseg20,
    hseg21, hseg22, hseg23, hseg24, hseg25, hseg26, hseg27, hseg28, hsegT, hq, hnl,
    hx, hy, hz, ha, hb, hcc, hc]
  omega

theorem provDocs_dropLast (clock : Nat → String) (n : Nat) :
    (provDocs clock (n + 1)).dropLast = provDocs clock n := by
  rw [provDocs_succ]
  simp

theorem buildYamlAux_succ (T : ℚ) (clock : Nat → String) (fuel : Nat)
    (documents : List YamlDoc) (docNumber : Nat) :
    buildYamlAux T clock (fuel + 1) documents docNumber =
      (if T ≤ (bsizeL (joinSep (((documents ++ [generateDocument (docNumber + 1) none
          (clock docNumber)]).map yamlStringify))) : ℚ) then
        (if (documents ++ [generateDocument (docNumber + 1) none
            (clock docNumber)]).length > 1 then
          (documents ++ [generateDocument (docNumber + 1) none (clock docNumber)]).dropLast
         else documents ++ [generateDocument (docNumber + 1) none (clock docNumber)],
         docNumber + 1)
      else if docNumber + 1 > 1000000 then
        (documents ++ [generateDocument (docNumber + 1) none (clock docNumber)],
         docNumber + 1)
      else buildYamlAux T clock fuel (documents ++ [generateDocument (docNumber + 1) none
        (clock docNumber)]) (docNumber + 1)) := rfl

theorem buildYamlAux_go (T : ℚ) (clock : Nat → String) : ∀ fuel m,
    fuel + m = 1000002 → 1 ≤ m → m ≤ 1000000 → ((ySizeP clock m : ℚ) < T) →
    (∃ n, m + 1 ≤ n ∧ n ≤ 1000001 ∧
        buildYamlAux T clock fuel (provDocs clock m) m = (provDocs clock (n - 1), n) ∧
        (ySizeP clock (n - 1) : ℚ) < T ∧ T ≤ (ySizeP clock n : ℚ)) ∨
      (buildYamlAux T clock fuel (provDocs clock m) m =
          (provDocs clock 1000001, 1000001) ∧
        (ySizeP clock 1000001 : ℚ) < T) := by
  intro fuel
  induction fuel with
  | zero => intro m h _ _ _; omega
  | succ f ih =>
    intro m hfm h1 h1M hprev
    rw [buildYamlAux_succ, ← provDocs_succ]
    rw [show bsizeL (joinSep (List.map yamlStringify (provDocs clock (m + 1)))) =
      ySizeP clock (m + 1) from rfl]
    by_cases hT : T ≤ (ySizeP clock (m + 1) : ℚ)
    · rw [if_pos hT, if_pos (by rw [provDocs_length]; omega)]
      rw [provDocs_dropLast]
      left
      refine ⟨m + 1, le_refl _, by omega, ?_, ?_, hT⟩
      · rw [Nat.add_sub_cancel]
      · rw [Nat.add_sub_cancel]; exact hprev
    · rw [if_neg hT]
      by_cases hcap : m + 1 > 1000000
      · rw [if_pos hcap]
        right
        have hm : m = 1000000 := by omega
        subst hm
        exact ⟨rfl, lt_of_not_le hT⟩
      · rw [if_neg hcap]
        have hrec := ih (m + 1) (by omega) (by omega) (by omega) (lt_of_not_le hT)
        rcases hrec with ⟨n, hn1, hn2, he, hs1, hs2⟩ | ⟨he, hs⟩
        · left; exact ⟨n, by omega, hn2, he, hs1, hs2⟩
        · right; exact ⟨he, hs⟩

theorem buildYamlAux_top (T : ℚ) (clock : Nat → String) :
    (buildYamlAux T clock 1000002 [] 0 = (provDocs clock 1, 1) ∧
      T ≤ (ySizeP clock 1 : ℚ)) ∨
    (∃ n, 2 ≤ n ∧ n ≤ 1000001 ∧
      buildYamlAux T clock 1000002 [] 0 = (provDocs clock (n - 1), n) ∧
      (ySizeP clock (n - 1) : ℚ) < T ∧ T ≤ (ySizeP clock n : ℚ)) ∨
    (buildYamlAux T clock 1000002 [] 0 = (provDocs clock 1000001, 1000001) ∧
      (ySizeP clock 1000001 : ℚ) < T) := by
  have hconv : ([] : List YamlDoc) ++ [generateDocument (0 + 1) none (clock 0)] =
      provDocs clock 1 := by
    simp [provDocs, List.range_succ]
  have hstep : buildYamlAux T clock 1000002 [] 0 =
      buildYamlAux T clock (1000001 + 1) [] 0 := rfl
  rw [hstep, buildYamlAux_succ, hconv]
  rw [show bsizeL (joinSep (List.map yamlStringify (provDocs clock 1))) =
    ySizeP clock 1 from rfl]
  by_cases hT : T ≤ (ySizeP clock 1 : ℚ)
  · left
    rw [if_pos hT, if_neg (by rw [provDocs_length]; omega)]
    exact ⟨rfl, hT⟩
  · right
    rw [if_neg hT, if_neg (by omega : ¬ (0 + 1 > 1000000))]
    have hrec := buildYamlAux_go T clock 1000001 1 (by omega) (le_refl 1) (by omega)
      (lt_of_not_le hT)
    rcases hrec with ⟨n, hn1, hn2, he, hs1, hs2⟩ | ⟨he, hs⟩
    · left; exact ⟨n, by omega, hn2, he, hs1, hs2⟩
    · right; exact ⟨he, hs⟩

/-- Document list of a YAML run. -/
def yamlDocsOf (t : ℚ) (clock : Nat → String) : List YamlDoc :=
  (buildYamlDocuments (targetBytes t) clock).1

/-- Reported document count of a YAML run. -/
def yamlCountOf (t : ℚ) (clock : Nat → String) : Nat :=
  (buildYamlDocuments (targetBytes t) clock).2.1

/-- Output string of a YAML run. -/
def yamlOutput (t : ℚ) (clock : Nat → String) : String :=
  String.mk (joinSep ((yamlDocsOf t clock).map yamlStringify))

theorem buildYamlDocuments_of_aux (T : ℚ) (clock : Nat → String) (k j : Nat)
    (he : buildYamlAux T clock 1000002 [] 0 = (provDocs clock k, j)) :
    buildYamlDocuments T clock =
      ((provDocs clock k).set 0 (generateDocument 1 (some k) (clock j)), k, j) := by
  unfold buildYamlDocuments
  simp [he, provDocs_length]

theorem provDocs_cons (clock : Nat → String) (m : Nat) :
    provDocs clock (m + 1) =
      generateDocument 1 none (clock 0) ::
        (List.range m).map (fun i => generateDocument (i + 2) none (clock (i + 1))) := by
  unfold provDocs
  rw [List.range_succ_eq_map]
  simp only [List.map_cons, List.map_map]
  rfl

/-- The part of the joined output following the first document. -/
def joinRest : List (List Char) → List Char
  | [] => []
  | d :: rest => yamlSep ++ joinSep (d :: rest)

theorem joinSep_cons (a : List Char) (rest : List (List Char)) :
    joinSep (a :: rest) = a ++ joinRest rest := by
  match rest with
  | [] => simp [joinRest, joinSep]
  | b :: r2 => rfl

theorem ySizeP_decomp (clock : Nat → String) (m : Nat) :
    ySizeP clock (m + 1) = bsizeL (yamlStringify (generateDocument 1 none (clock 0))) +
      bsizeL (joinRest (((List.range m).map fun i =>
        generateDocument (i + 2) none (clock (i + 1))).map yamlStringify)) := by
  unfold ySizeP
  rw [provDocs_cons, List.map_cons, joinSep_cons, bsizeL_append]

theorem yaml_final_bytes (clock : Nat → String) (k j : Nat) (hk : 1 ≤ k)
    (hcl : bsizeL (clock j).data = bsizeL (clock 0).data) :
    bsizeL (joinSep (((provDocs clock k).set 0
        (generateDocument 1 (some k) (clock j))).map yamlStringify)) =
      ySizeP clock k + 17 + dlen k := by
  obtain ⟨m, rfl⟩ : ∃ m, k = m + 1 := ⟨k - 1, by omega⟩
  rw [provDocs_cons, List.set_cons_zero, List.map_cons, joinSep_cons, bsizeL_append,
    ySizeP_decomp, yamlStringify_bytes_some, yamlStringify_bytes_none, hcl]
  have hd1 : dlen 1 = 1 := dlen_lt10 (by omega)
  rw [hd1]
  omega

theorem ySizeP_mono (clock : Nat → String) : ∀ k, 1 ≤ k →
    ySizeP clock 1 ≤ ySizeP clock k := by
  intro k
  induction k with
  | zero => intro h; omega
  | succ m ih =>
    intro h
    by_cases hm : 1 ≤ m
    · have := ySizeP_succ clock m hm
      have := ih hm
      omega
    · have hm0 : m = 0 := by omega
      subst hm0
      exact le_refl _

theorem yaml_min (T : ℚ) (clock : Nat → String) (h : T ≤ (ySizeP clock 1 : ℚ)) :
    buildYamlDocuments T clock =
      ([generateDocument 1 (some 1) (clock 1)], 1, 1) := by
  rcases buildYamlAux_top T clock with ⟨he, hs⟩ | ⟨n, hn1, hn2, he, hs1, hs2⟩ | ⟨he, hs⟩
  · rw [buildYamlDocuments_of_aux T clock 1 1 he]
    rw [show (1 : Nat) = 0 + 1 from rfl, provDocs_cons]
    simp
  · exfalso
    have hmono : ySizeP clock 1 ≤ ySizeP clock (n - 1) := ySizeP_mono clock (n - 1) (by omega)
    have : (ySizeP clock 1 : ℚ) ≤ (ySizeP clock (n - 1) : ℚ) := by exact_mod_cast hmono
    linarith
  · exfalso
    have hmono : ySizeP clock 1 ≤ ySizeP clock 1000001 := ySizeP_mono clock 1000001 (by omega)
    have : (ySizeP clock 1 : ℚ) ≤ (ySizeP clock 1000001 : ℚ) := by exact_mod_cast hmono
    linarith

theorem yaml_cap (T : ℚ) (clock : Nat → String)
    (h : ∀ k, 1 ≤ k → k ≤ 1000001 → (ySizeP clock k : ℚ) < T) :
    buildYamlDocuments T clock =
      ((provDocs clock 1000001).set 0
        (generateDocument 1 (some 1000001) (clock 1000001)), 1000001, 1000001) := by
  rcases buildYamlAux_top T clock with ⟨he, hs⟩ | ⟨n, hn1, hn2, he, hs1, hs2⟩ | ⟨he, hs⟩
  · exact absurd hs (not_le.mpr (h 1 (by omega) (by omega)))
  · exact absurd hs2 (not_le.mpr (h n (by omega) hn2))
  · exact buildYamlDocuments_of_aux T clock 1000001 1000001 he

theorem generateLargeObject_yaml (t : ℚ) (clock : Nat → String) :
    generateLargeObject t ("yaml") clock =
      ([.logGenerating ("yaml") t, .logGeneratedIn,
        .logActualSize (toFixed2 ((getByteSize (yamlOutput t clock) : ℚ) / (1024 * 1024))),
        .logTotalDocuments (yamlCountOf t clock),
        .fileWrite ⟨t, ("yaml")⟩ (yamlOutput t clock), .logFileSaved ⟨t, ("yaml")⟩],
       .ok { output := yamlOutput t clock,
             deepestPath := "Multiple documents (" ++ natStr (yamlCountOf t clock) ++
               " total)",
             depth := yamlCountOf t clock,
             actualSizeMB := toFixed2 ((getByteSize (yamlOutput t clock) : ℚ) /
               (1024 * 1024)),
             format := ("yaml"), fileName := ⟨t, ("yaml")⟩ }) := rfl

theorem yamlDocs_shape (t : ℚ) (clock : Nat → String) :
    ∃ k j, 1 ≤ k ∧ k ≤ 1000001 ∧ yamlCountOf t clock = k ∧
      yamlDocsOf t clock =
        (provDocs clock k).set 0 (generateDocument 1 (some k) (clock j)) := by
  rcases buildYamlAux_top (targetBytes t) clock with ⟨he, _⟩ | ⟨n, hn1, hn2, he, _, _⟩ |
    ⟨he, _⟩
  · have h2 := buildYamlDocuments_of_aux _ clock 1 1 he
    exact ⟨1, 1, by omega, by omega, by unfold yamlCountOf; rw [h2],
      by unfold yamlDocsOf; rw [h2]⟩
  · have h2 := buildYamlDocuments_of_aux _ clock (n - 1) n he
    exact ⟨n - 1, n, by omega, by omega, by unfold yamlCountOf; rw [h2],
      by unfold yamlDocsOf; rw [h2]⟩
  · have h2 := buildYamlDocuments_of_aux _ clock 1000001 1000001 he
    exact ⟨1000001, 1000001, by omega, by omega, by unfold yamlCountOf; rw [h2],
      by unfold yamlDocsOf; rw [h2]⟩

theorem yamlBound_helper (F Yk : Nat) (TT : ℚ) (hFQ : (F : ℚ) ≤ (Yk : ℚ) + 24)
    (hYk : (Yk : ℚ) < TT) (hT : (3227 : ℚ) ≤ TT) : (F : ℚ) ≤ 50 / 49 * TT := by
  linarith

theorem ySizeP_one_ge (clock : Nat → String) : 3227 ≤ ySizeP clock 1 := by
  rw [show (1 : Nat) = 0 + 1 from rfl, ySizeP_decomp, yamlStringify_bytes_none]
  have hd1 : dlen 1 = 1 := dlen_lt10 (by omega)
  rw [hd1]
  simp [joinRest, bsizeL_nil]

theorem pow7_eq : (10 : Nat) ^ 7 = 10000000 := by norm_num

theorem yaml_bound (t : ℚ) (clock : Nat → String)
    (hcl : ∀ i, bsizeL (clock i).data = bsizeL (clock 0).data)
    (h1 : (ySizeP clock 1 : ℚ) < targetBytes t) :
    (getByteSize (yamlOutput t clock) : ℚ) ≤ t * 1024 * 1024 := by
  have hTt : t * 1024 * 1024 = 50 / 49 * targetBytes t := by unfold targetBytes; ring
  rcases buildYamlAux_top (targetBytes t) clock with ⟨he, hs⟩ |
    ⟨n, hn1, hn2, he, hs1, hs2⟩ | ⟨he, hs⟩
  · exact absurd hs (not_le.mpr h1)
  · have h2 := buildYamlDocuments_of_aux _ clock (n - 1) n he
    have hdocs : yamlDocsOf t clock =
        (provDocs clock (n - 1)).set 0 (generateDocument 1 (some (n - 1)) (clock n)) := by
      unfold yamlDocsOf
      rw [h2]
    have hout : getByteSize (yamlOutput t clock) =
        ySizeP clock (n - 1) + 17 + dlen (n - 1) := by
      unfold yamlOutput
      rw [hdocs, getByteSize_mk]
      exact yaml_final_bytes clock (n - 1) n (by omega) (hcl n)
    have hdl : dlen (n - 1) ≤ 7 := dlen_le 6 (n - 1) (by rw [pow7_eq]; omega)
    have hF : getByteSize (yamlOutput t clock) ≤ ySizeP clock (n - 1) + 24 := by omega
    have hFQ : (getByteSize (yamlOutput t clock) : ℚ) ≤ (ySizeP clock (n - 1) : ℚ) + 24 := by
      exact_mod_cast hF
    have hyg : 3227 ≤ ySizeP clock (n - 1) :=
      le_trans (ySizeP_one_ge clock) (ySizeP_mono clock (n - 1) (by omega))
    have hT : (3227 : ℚ) ≤ targetBytes t :=
      le_trans (by exact_mod_cast hyg) (le_of_lt hs1)
    rw [hTt]
    exact yamlBound_helper _ _ _ hFQ hs1 hT
  · have h2 := buildYamlDocuments_of_aux _ clock 1000001 1000001 he
    have hdocs : yamlDocsOf t clock =
        (provDocs clock 1000001).set 0 (generateDocument 1 (some 1000001) (clock 1000001)) := by
      unfold yamlDocsOf
      rw [h2]
    have hout : getByteSize (yamlOutput t clock) =
        ySizeP clock 1000001 + 17 + dlen 1000001 := by
      unfold yamlOutput
      rw [hdocs, getByteSize_mk]
      exact yaml_final_bytes clock 1000001 1000001 (by omega) (hcl 1000001)
    have hdl : dlen 1000001 ≤ 7 := dlen_le 6 1000001 (by rw [pow7_eq]; omega)
    have hyg : 3227 ≤ ySizeP clock 1000001 :=
      le_trans (ySizeP_one_ge clock) (ySizeP_mono clock 1000001 (by omega))
    rw [hTt, hout]
    generalize hY : ySizeP clock 1000001 = Y at hs hyg ⊢
    generalize hD : dlen 1000001 = D at hdl ⊢
    have hF : Y + 17 + D ≤ Y + 24 := by omega
    have hFQ : ((Y + 17 + D : Nat) : ℚ) ≤ (Y : ℚ) + 24 := by exact_mod_cast hF
    have hTq : (3227 : ℚ) ≤ targetBytes t :=
      le_trans (by exact_mod_cast hyg) (le_of_lt hs)
    exact yamlBound_helper _ _ _ hFQ hs hTq

/-- An ISO-like constant clock used to instantiate the generator in concrete runs. -/
def stdClock : Nat → String := fun _ => "2024-01-01T00:00:00.000Z"

/-- Clocks whose readings all have the byte size of an ISO-8601 timestamp. -/
def IsoSized (clock : Nat → String) : Prop := ∀ i, bsizeL (clock i).data = 24

theorem stdClock_iso : IsoSized stdClock := fun i => by
  show bsizeL (("2024-01-01T00:00:00.000Z").data) = 24
  decide

theorem pathStrOf_zero : pathStrOf 0 = "." := rfl

theorem jsonSizeAt_one : jsonSizeAt 1 = 2086 := by
  have h := jsonSizeAt_succ 0
  have hd : dlen 1 = 1 := dlen_lt10 (by omega)
  rw [jsonSizeAt_zero, hd] at h
  rw [show (0 : Nat) + 1 = 1 from rfl] at h
  rw [h]

theorem ySizeP_one_eq (clock : Nat → String) :
    ySizeP clock 1 = 3227 + bsizeL (clock 0).data := by
  rw [show (1 : Nat) = 0 + 1 from rfl, ySizeP_decomp, yamlStringify_bytes_none]
  have hd : dlen 1 = 1 := dlen_lt10 (by omega)
  rw [hd]
  simp [joinRest, bsizeL_nil]

theorem ySizeP_one_std : ySizeP stdClock 1 = 3251 := by
  rw [ySizeP_one_eq]
  have h : bsizeL (stdClock 0).data = 24 := stdClock_iso 0
  rw [h]

theorem toLowerStr_json : toLowerStr ("json") = "json" := by decide

theorem toLowerStr_yaml : toLowerStr ("yaml") = "yaml" := by decide

theorem generateLargeObject_format_json (t : ℚ) (clock : Nat → String) (format : String)
    (hf : toLowerStr format = "json") :
    generateLargeObject t format clock = generateLargeObject t ("json") clock := by
  unfold generateLargeObject
  rw [hf, toLowerStr_json]

theorem generateLargeObject_format_yaml (t : ℚ) (clock : Nat → String) (format : String)
    (hf : toLowerStr format = "yaml") :
    generateLargeObject t format clock = generateLargeObject t ("yaml") clock := by
  unfold generateLargeObject
  rw [hf, toLowerStr_yaml]

theorem targetBytes_nonpos (t : ℚ) (ht : t ≤ 0) : targetBytes t ≤ 0 := by
  unfold targetBytes
  nlinarith

/-- Output extractor of a generator run; empty string when the run threw. -/
def resOutput (p : List Effect × Except FormatError GenResult) : String :=
  match p.2 with
  | .ok r => r.output
  | .error _ => ""

def isFileWrite : Effect → Bool
  | .fileWrite _ _ => true
  | _ => false

theorem yamlStringify_bytes_congr (n : Nat) (ts1 ts2 : String)
    (h : bsizeL ts1.data = bsizeL ts2.data) :
    bsizeL (yamlStringify (generateDocument n none ts1)) =
      bsizeL (yamlStringify (generateDocument n none ts2)) := by
  rw [yamlStringify_bytes_none, yamlStringify_bytes_none, h]

theorem ySizeP_congr (c1 c2 : Nat → String)
    (h : ∀ i, bsizeL (c1 i).data = bsizeL (c2 i).data) :
    ∀ n, ySizeP c1 n = ySizeP c2 n := by
  intro n
  induction n with
  | zero => rfl
  | succ m ih =>
    by_cases hm : 1 ≤ m
    · rw [ySizeP_succ c1 m hm, ySizeP_succ c2 m hm, ih,
        yamlStringify_bytes_congr (m + 1) _ _ (h m)]
    · have hm0 : m = 0 := by omega
      subst hm0
      rw [show (0 : Nat) + 1 = 1 from rfl, ySizeP_one_eq, ySizeP_one_eq, h 0]

theorem ySizeP_le_mono (clock : Nat → String) (m : Nat) (hm : 1 ≤ m) : ∀ k, m ≤ k →
    ySizeP clock m ≤ ySizeP clock k := by
  intro k
  induction k with
  | zero => intro h; omega
  | succ j ih =>
    intro h
    by_cases hj : m ≤ j
    · have h1 := ySizeP_succ clock j (by omega)
      have h2 := ih hj
      omega
    · have hmj : m = j + 1 := by omega
      subst hmj
      exact le_refl _

theorem yamlCount_congr (t : ℚ) (c1 c2 : Nat → String)
    (h : ∀ i, bsizeL (c1 i).data = bsizeL (c2 i).data) :
    yamlCountOf t c1 = yamlCountOf t c2 := by
  have hy : ∀ n, ySizeP c1 n = ySizeP c2 n := ySizeP_congr c1 c2 h
  have count1 : ∀ k j, buildYamlAux (targetBytes t) c1 1000002 [] 0 = (provDocs c1 k, j) →
      yamlCountOf t c1 = k := fun k j he => by
    unfold yamlCountOf
    rw [buildYamlDocuments_of_aux _ c1 k j he]
  have count2 : ∀ k j, buildYamlAux (targetBytes t) c2 1000002 [] 0 = (provDocs c2 k, j) →
      yamlCountOf t c2 = k := fun k j he => by
    unfold yamlCountOf
    rw [buildYamlDocuments_of_aux _ c2 k j he]
  rcases buildYamlAux_top (targetBytes t) c1 with ⟨e1, s1⟩ | ⟨n1, hn1a, hn1b, e1, s1a, s1b⟩ |
    ⟨e1, s1⟩ <;>
  rcases buildYamlAux_top (targetBytes t) c2 with ⟨e2, s2⟩ | ⟨n2, hn2a, hn2b, e2, s2a, s2b⟩ |
    ⟨e2, s2⟩
  · rw [count1 1 1 e1, count2 1 1 e2]
  · exfalso
    have hmono : ySizeP c2 1 ≤ ySizeP c2 (n2 - 1) := ySizeP_mono c2 (n2 - 1) (by omega)
    have : (ySizeP c2 1 : ℚ) ≤ (ySizeP c2 (n2 - 1) : ℚ) := by exact_mod_cast hmono
    rw [← hy 1] at this
    linarith
  · exfalso
    have hmono : ySizeP c2 1 ≤ ySizeP c2 1000001 := ySizeP_mono c2 1000001 (by omega)
    have : (ySizeP c2 1 : ℚ) ≤ (ySizeP c2 1000001 : ℚ) := by exact_mod_cast hmono
    rw [← hy 1] at this
    linarith
  · exfalso
    have hmono : ySizeP c1 1 ≤ ySizeP c1 (n1 - 1) := ySizeP_mono c1 (n1 - 1) (by omega)
    have : (ySizeP c1 1 : ℚ) ≤ (ySizeP c1 (n1 - 1) : ℚ) := by exact_mod_cast hmono
    rw [hy 1] at this
    linarith
  · rw [count1 (n1 - 1) n1 e1, count2 (n2 - 1) n2 e2]
    rcases Nat.lt_trichotomy n1 n2 with hlt | heq | hgt
    · exfalso
      have hmono : ySizeP c2 n1 ≤ ySizeP c2 (n2 - 1) :=
        ySizeP_le_mono c2 n1 (by omega) (n2 - 1) (by omega)
      have hQ : (ySizeP c2 n1 : ℚ) ≤ (ySizeP c2 (n2 - 1) : ℚ) := by exact_mod_cast hmono
      rw [← hy n1] at hQ
      linarith
    · rw [heq]
    · exfalso
      have hmono : ySizeP c1 n2 ≤ ySizeP c1 (n1 - 1) :=
        ySizeP_le_mono c1 n2 (by omega) (n1 - 1) (by omega)
      have hQ : (ySizeP c1 n2 : ℚ) ≤ (ySizeP c1 (n1 - 1) : ℚ) := by exact_mod_cast hmono
      rw [hy n2] at hQ
      linarith
  · exfalso
    have hmono : ySizeP c2 n1 ≤ ySizeP c2 1000001 :=
      ySizeP_le_mono c2 n1 (by omega) 1000001 (by omega)
    have hQ : (ySizeP c2 n1 : ℚ) ≤ (ySizeP c2 1000001 : ℚ) := by exact_mod_cast hmono
    rw [← hy n1] at hQ
    linarith
  · exfalso
    have hmono : ySizeP c1 1 ≤ ySizeP c1 1000001 := ySizeP_mono c1 1000001 (by omega)
    have : (ySizeP c1 1 : ℚ) ≤ (ySizeP c1 1000001 : ℚ) := by exact_mod_cast hmono
    rw [hy 1] at this
    linarith
  · exfalso
    have hmono : ySizeP c1 n2 ≤ ySizeP c1 1000001 :=
      ySizeP_le_mono c1 n2 (by omega) 1000001 (by omega)
    have hQ : (ySizeP c1 n2 : ℚ) ≤ (ySizeP c1 1000001 : ℚ) := by exact_mod_cast hmono
    rw [hy n2] at hQ
    linarith
  · rw [count1 1000001 1000001 e1, count2 1000001 1000001 e2]

theorem yamlOutput_bytes (t : ℚ) (clock : Nat → String)
    (hcl : ∀ i, bsizeL (clock i).data = bsizeL (clock 0).data) :
    getByteSize (yamlOutput t clock) =
      ySizeP clock (yamlCountOf t clock) + 17 + dlen (yamlCountOf t clock) := by
  obtain ⟨k, j, hk1, hk2, hcnt, hdocs⟩ := yamlDocs_shape t clock
  rw [hcnt]
  unfold yamlOutput
  rw [hdocs, getByteSize_mk]
  exact yaml_final_bytes clock k j hk1 (hcl j)

theorem yamlRun_congr (t : ℚ) (c1 c2 : Nat → String) (h1 : IsoSized c1) (h2 : IsoSized c2) :
    yamlCountOf t c1 = yamlCountOf t c2 ∧
      getByteSize (yamlOutput t c1) = getByteSize (yamlOutput t c2) := by
  have h : ∀ i, bsizeL (c1 i).data = bsizeL (c2 i).data := fun i => by rw [h1 i, h2 i]
  have hc := yamlCount_congr t c1 c2 h
  refine ⟨hc, ?_⟩
  rw [yamlOutput_bytes t c1 (fun i => by rw [h1 i, h1 0]),
    yamlOutput_bytes t c2 (fun i => by rw [h2 i, h2 0]), hc,
    ySizeP_congr c1 c2 h (yamlCountOf t c2)]

/-- Models String.prototype.split on the document separator, at the character level:
greedy left-to-right scanning; acc holds the piece being read, reversed. -/
def yamlSplitGo (acc : List Char) : List Char → List (List Char)
  | [] => [acc.reverse]
  | '-' :: '-' :: '-' :: '\n' :: rest2 => acc.reverse :: yamlSplitGo [] rest2
  | c :: rest => yamlSplitGo (c :: acc) rest

/-- Scan for an occurrence of the document separator inside a character sequence. -/
def hasSepB : List Char → Bool
  | [] => false
  | '-' :: '-' :: '-' :: '\n' :: _ => true
  | _ :: rest => hasSepB rest

theorem yamlSplitGo_sep (acc rest : List Char) :
    yamlSplitGo acc (('-') :: ('-') :: ('-') :: ('\n') :: rest) =
      acc.reverse :: yamlSplitGo [] rest := rfl

theorem hasSepB_sep (rest : List Char) :
    hasSepB (('-') :: ('-') :: ('-') :: ('\n') :: rest) = true := rfl

theorem yamlSplitGo_other (acc : List Char) (c : Char) (rest : List Char)
    (h : ¬ ∃ r2, c :: rest = ('-') :: ('-') :: ('-') :: ('\n') :: r2) :
    yamlSplitGo acc (c :: rest) = yamlSplitGo (c :: acc) rest := by
  conv_lhs => unfold yamlSplitGo
  split
  · next heq => simp at heq
  · next rest2 heq => exact absurd ⟨rest2, heq⟩ h
  · next c2 rest2 _ heq =>
    injection heq with h1 h2
    subst h1
    subst h2
    rfl

theorem hasSepB_other (c : Char) (rest : List Char)
    (h : ¬ ∃ r2, c :: rest = ('-') :: ('-') :: ('-') :: ('\n') :: r2) :
    hasSepB (c :: rest) = hasSepB rest := by
  conv_lhs => unfold hasSepB
  split
  · next heq => simp at heq
  · next heq => exact absurd (by exact ⟨_, heq⟩) h
  · next c2 rest2 _ heq =>
    injection heq with h1 h2
    subst h1
    subst h2
    rfl

theorem hasSepB_cons_false {c : Char} {rest : List Char}
    (h : hasSepB (c :: rest) = false) : hasSepB rest = false := by
  by_cases hs : ∃ r2, c :: rest = ('-') :: ('-') :: ('-') :: ('\n') :: r2
  · obtain ⟨r2, he⟩ := hs
    rw [he, hasSepB_sep] at h
    cases h
  · rwa [hasSepB_other c rest hs] at h

theorem yamlSplitGo_word : ∀ p acc, hasSepB p = false →
    yamlSplitGo acc p = [acc.reverse ++ p] := by
  intro p
  induction p with
  | nil => intro acc h; simp [yamlSplitGo]
  | cons c p' ih =>
    intro acc h
    have hfront : ¬ ∃ r2, c :: p' = ('-') :: ('-') :: ('-') :: ('\n') :: r2 := by
      rintro ⟨r2, he⟩
      rw [he, hasSepB_sep] at h
      cases h
    rw [yamlSplitGo_other acc c p' hfront, ih (c :: acc) (hasSepB_cons_false h)]
    simp

theorem yamlSplitGo_chunk : ∀ p acc t, hasSepB p = false →
    yamlSplitGo acc (p ++ (yamlSep ++ t)) = (acc.reverse ++ p) :: yamlSplitGo [] t := by
  intro p
  induction p with
  | nil =>
    intro acc t h
    show yamlSplitGo acc (('-') :: ('-') :: ('-') :: ('\n') :: t) = _
    rw [yamlSplitGo_sep]
    simp
  | cons c p' ih =>
    intro acc t h
    have hfront : ¬ ∃ r2, c :: (p' ++ (yamlSep ++ t)) =
        ('-') :: ('-') :: ('-') :: ('\n') :: r2 := by
      rintro ⟨r2, he⟩
      match p', h, he with
      | [], h, he =>
        have h4 := (List.cons.injEq _ _ _ _).mp he
        have h5 := (List.cons.injEq _ _ _ _).mp h4.2
        have h6 := (List.cons.injEq _ _ _ _).mp h5.2
        have h7 := (List.cons.injEq _ _ _ _).mp h6.2
        exact absurd h7.1 (by decide)
      | [d], h, he =>
        have h4 := (List.cons.injEq _ _ _ _).mp he
        have h5 := (List.cons.injEq _ _ _ _).mp h4.2
        have h6 := (List.cons.injEq _ _ _ _).mp h5.2
        have h7 := (List.cons.injEq _ _ _ _).mp h6.2
        exact absurd h7.1 (by decide)
      | [d, e], h, he =>
        have h4 := (List.cons.injEq _ _ _ _).mp he
        have h5 := (List.cons.injEq _ _ _ _).mp h4.2
        have h6 := (List.cons.injEq _ _ _ _).mp h5.2
        have h7 := (List.cons.injEq _ _ _ _).mp h6.2
        exact absurd h7.1 (by decide)
      | d :: e :: f :: p'', h, he =>
        have h4 := (List.cons.injEq _ _ _ _).mp he
        have h5 := (List.cons.injEq _ _ _ _).mp h4.2
        have h6 := (List.cons.injEq _ _ _ _).mp h5.2
        have h7 := (List.cons.injEq _ _ _ _).mp h6.2
        rw [h4.1, h5.1, h6.1, h7.1, hasSepB_sep] at h
        cases h
    rw [show (c :: p') ++ (yamlSep ++ t) = c :: (p' ++ (yamlSep ++ t)) from rfl,
      yamlSplitGo_other _ _ _ hfront, ih (c :: acc) t (hasSepB_cons_false h)]
    simp

theorem yamlSplitGo_joinSep : ∀ parts, parts ≠ ([] : List (List Char)) →
    (∀ p ∈ parts, hasSepB p = false) →
    yamlSplitGo [] (joinSep parts) = parts := by
  intro parts
  induction parts with
  | nil => intro h _; cases h rfl
  | cons p rest ih =>
    intro _ hall
    match rest, ih with
    | [], _ =>
      show yamlSplitGo [] p = [p]
      rw [yamlSplitGo_word p [] (hall p (by simp))]
      rfl
    | q :: rest2, ih =>
      rw [joinSep_cons2, yamlSplitGo_chunk p [] _ (hall p (by simp)),
        ih (by simp) fun x hx => hall x (List.mem_cons_of_mem p hx)]
      rfl

theorem hasSepB_line : ∀ l R, ('\n') ∉ l → l.getLast? ≠ some ('-') →
    hasSepB R = false → hasSepB (l ++ ('\n') :: R) = false := by
  intro l
  induction l with
  | nil =>
    intro R _ _ hR
    rw [List.nil_append, hasSepB_other ('\n') R (by rintro ⟨r2, he⟩; simp at he)]
    exact hR
  | cons c l' ih =>
    intro R hnl hlast hR
    have hfront : ¬ ∃ r2, c :: (l' ++ ('\n') :: R) =
        ('-') :: ('-') :: ('-') :: ('\n') :: r2 := by
      rintro ⟨r2, he⟩
      match l', hnl, hlast, he with
      | [], hnl, hlast, he =>
        have h4 := (List.cons.injEq _ _ _ _).mp he
        have h5 := (List.cons.injEq _ _ _ _).mp h4.2
        exact absurd h5.1 (by decide)
      | [d], hnl, hlast, he =>
        have h4 := (List.cons.injEq _ _ _ _).mp he
        have h5 := (List.cons.injEq _ _ _ _).mp h4.2
        have h6 := (List.cons.injEq _ _ _ _).mp h5.2
        exact absurd h6.1 (by decide)
      | [d, e], hnl, hlast, he =>
        have h4 := (List.cons.injEq _ _ _ _).mp he
        have h5 := (List.cons.injEq _ _ _ _).mp h4.2
        have h6 := (List.cons.injEq _ _ _ _).mp h5.2
        apply hlast
        rw [h6.1]
        rfl
      | d :: e :: f :: l'', hnl, hlast, he =>
        have h4 := (List.cons.injEq _ _ _ _).mp he
        have h5 := (List.cons.injEq _ _ _ _).mp h4.2
        have h6 := (List.cons.injEq _ _ _ _).mp h5.2
        have h7 := (List.cons.injEq _ _ _ _).mp h6.2
        exact hnl (by rw [h7.1]; simp)
    rw [List.cons_append, hasSepB_other _ _ hfront]
    apply ih R
    · exact fun hm => hnl (List.mem_cons_of_mem c hm)
    · intro hl'
      apply hlast
      match l', hl' with
      | x :: xs, hl' =>
        rw [List.getLast?_cons_cons]
        exact hl'
    · exact hR

theorem hasSepB_linesJoin : ∀ lines : List (List Char),
    (∀ l ∈ lines, ('\n') ∉ l ∧ l.getLast? ≠ some ('-')) →
    hasSepB ((lines.map fun l => l ++ [('\n')]).flatten) = false := by
  intro lines
  induction lines with
  | nil => intro _; rfl
  | cons l ls ih =>
    intro h
    rw [List.map_cons, List.flatten_cons, List.append_assoc, List.singleton_append]
    exact hasSepB_line l _ (h l (List.mem_cons_self l ls)).1
      (h l (List.mem_cons_self l ls)).2
      (ih fun x hx => h x (List.mem_cons_of_mem l hx))

/-! Each line of a serialized document is free of newlines and does not end in a
dash, so the joined output contains the separator only where join placed it. -/

theorem natDigits_ne_nil (n : Nat) : natDigits n ≠ [] := by
  rw [natDigits_eq]
  by_cases hn : n < 10 <;> simp [hn]

theorem nl_not_mem_natDigits (n : Nat) : ('\n') ∉ natDigits n := by
  intro h
  have hd := natDigits_mem n _ h
  revert hd
  decide

theorem dash_not_getLast_natDigits (n : Nat) : (natDigits n).getLast? ≠ some ('-') := by
  intro h
  have hd := natDigits_mem n _ (List.mem_of_getLast?_eq_some h)
  revert hd
  decide

theorem nl_append {a b : List Char} (ha : ('\n') ∉ a) (hb : ('\n') ∉ b) :
    ('\n') ∉ a ++ b := fun h => (List.mem_append.mp h).elim ha hb

theorem nl_replicate (k : Nat) {c : Char} (hc : c ≠ ('\n')) :
    ('\n') ∉ List.replicate k c := fun h => hc (List.eq_of_mem_replicate h).symm

theorem goodLine_digits (pre : List Char) (hpre : ('\n') ∉ pre) (m : Nat) :
    ('\n') ∉ pre ++ natDigits m ∧ (pre ++ natDigits m).getLast? ≠ some ('-') := by
  refine ⟨nl_append hpre (nl_not_mem_natDigits m), ?_⟩
  intro h
  rw [List.getLast?_append] at h
  cases hg : (natDigits m).getLast? with
  | none => exact natDigits_ne_nil m (List.getLast?_eq_none_iff.mp hg)
  | some a =>
    rw [hg, Option.or_some] at h
    exact dash_not_getLast_natDigits m (hg.trans h)

theorem goodLine_dq (pre s : List Char) (hpre : ('\n') ∉ pre) (hs : ('\n') ∉ s) :
    ('\n') ∉ pre ++ dq s ∧ (pre ++ dq s).getLast? ≠ some ('-') := by
  constructor
  · apply nl_append hpre
    intro h
    rcases List.mem_append.mp h with h | h
    · exact absurd h (by decide)
    · rcases List.mem_append.mp h with h | h
      · exact hs h
      · exact absurd h (by decide)
  · have he : pre ++ dq s = (pre ++ (('\"') :: s)) ++ [('\"')] := by
      simp [dq]
    rw [he, List.getLast?_concat]
    decide

/-- The serialized lines of generateDocument, written out. -/
theorem yamlDocLines_generateDocument (n : Nat) (topt : Option Nat) (ts : String) :
    yamlDocLines (generateDocument n topt ts) =
      [("documentId: ").data ++ natDigits n,
       ("timestamp: ").data ++ dq ts.data,
       ("data:").data,
       ("  field1: ").data ++ dq (("Document ").data ++ natDigits n ++
         (" - Field 1: ").data ++ List.replicate 500 'x'),
       ("  field2: ").data ++ dq (("Document ").data ++ natDigits n ++
         (" - Field 2: ").data ++ List.replicate 500 'y'),
       ("  field3: ").data ++ dq (("Document ").data ++ natDigits n ++
         (" - Field 3: ").data ++ List.replicate 500 'z'),
       ("  metadata:").data,
       ("    author: ").data ++ dq (("Author ").data ++ natDigits n),
       ("    tags:").data,
       ("      - ").data ++ dq (("tag").data ++ natDigits n),
       ("      - ").data ++ dq (("category").data ++ natDigits (n % 10)),
       ("      - ").data ++ dq (("general").data),
       ("    description: ").data ++ dq (("This is document number ").data ++
         natDigits n ++ (" with some padding: ").data ++ List.replicate 300 'a'),
       ("  content:").data,
       ("    title: ").data ++ dq (("Title for document ").data ++ natDigits n),
       ("    body: ").data ++ dq (("Body content for document ").data ++ natDigits n ++
         (": ").data ++ List.replicate 800 'b'),
       ("    footer: ").data ++ dq (("Footer for document ").data ++ natDigits n ++
         (": ").data ++ List.replicate 200 'c')] ++
      (match (if n = 1 ∧ topt.isSome then topt else none : Option Nat) with
       | none => []
       | some N => [("totalDocuments: ").data ++ natDigits N]) := rfl

theorem yamlDocLines_good (n : Nat) (topt : Option Nat) (ts : String)
    (hts : ('\n') ∉ ts.data) :
    ∀ l ∈ yamlDocLines (generateDocument n topt ts),
      ('\n') ∉ l ∧ l.getLast? ≠ some ('-') := by
  intro l hl
  rw [yamlDocLines_generateDocument] at hl
  rcases List.mem_append.mp hl with hl | hl
  · simp only [List.mem_cons, List.not_mem_nil, or_false] at hl
    rcases hl with rfl | rfl | rfl | rfl | rfl | rfl | rfl | rfl | rfl | rfl | rfl |
      rfl | rfl | rfl | rfl | rfl | rfl
    · exact goodLine_digits _ (by decide) n
    · exact goodLine_dq _ _ (by decide) hts
    · exact ⟨by decide, by decide⟩
    · exact goodLine_dq _ _ (by decide)
        (nl_append (nl_append (nl_append (by decide) (nl_not_mem_natDigits n))
          (by decide)) (nl_replicate 500 (by decide)))
    · exact goodLine_dq _ _ (by decide)
        (nl_append (nl_append (nl_append (by decide) (nl_not_mem_natDigits n))
          (by decide)) (nl_replicate 500 (by decide)))
    · exact goodLine_dq _ _ (by decide)
        (nl_append (nl_append (nl_append (by decide) (nl_not_mem_natDigits n))
          (by decide)) (nl_replicate 500 (by decide)))
    · exact ⟨by decide, by decide⟩
    · exact goodLine_dq _ _ (by decide)
        (nl_append (by decide) (nl_not_mem_natDigits n))
    · exact ⟨by decide, by decide⟩
    · exact goodLine_dq _ _ (by decide)
        (nl_append (by decide) (nl_not_mem_natDigits n))
    · exact goodLine_dq _ _ (by decide)
        (nl_append (by decide) (nl_not_mem_natDigits (n % 10)))
    · exact goodLine_dq _ _ (by decide) (by decide)
    · exact goodLine_dq _ _ (by decide)
        (nl_append (nl_append (nl_append (by decide) (nl_not_mem_natDigits n))
          (by decide)) (nl_replicate 300 (by decide)))
    · exact ⟨by decide, by decide⟩
    · exact goodLine_dq _ _ (by decide)
        (nl_append (by decide) (nl_not_mem_natDigits n))
    · exact goodLine_dq _ _ (by decide)
        (nl_append (nl_append (nl_append (by decide) (nl_not_mem_natDigits n))
          (by decide)) (nl_replicate 800 (by decide)))
    · exact goodLine_dq _ _ (by decide)
        (nl_append (nl_append (nl_append (by decide) (nl_not_mem_natDigits n))
          (by decide)) (nl_replicate 200 (by decide)))
  · cases hc : (if n = 1 ∧ topt.isSome then topt else none : Option Nat) with
    | none =>
      rw [hc] at hl
      exact absurd hl (List.not_mem_nil l)
    | some N =>
      rw [hc] at hl
      have hl2 : l = ("totalDocuments: ").data ++ natDigits N :=
        List.mem_singleton.mp hl
      rw [hl2]
      exact goodLine_digits _ (by decide) N

theorem hasSepB_doc (n : Nat) (topt : Option Nat) (ts : String)
    (hts : ('\n') ∉ ts.data) :
    hasSepB (yamlStringify (generateDocument n topt ts)) = false := by
  rw [yamlStringify]
  exact hasSepB_linesJoin _ (yamlDocLines_good n topt ts hts)

/-! Splitting the joined output recovers the serialized document list. -/

theorem yamlDocsOf_length (t : ℚ) (clock : Nat → String) :
    (yamlDocsOf t clock).length = yamlCountOf t clock := by
  rcases yamlDocs_shape t clock with ⟨k, j, hk1, hk2, hcount, hdocs⟩
  rw [hdocs, hcount, List.length_set, provDocs_length]

theorem yamlCountOf_pos (t : ℚ) (clock : Nat → String) : 1 ≤ yamlCountOf t clock := by
  rcases yamlDocs_shape t clock with ⟨k, j, hk1, hk2, hcount, hdocs⟩
  omega

theorem yaml_split_eq (t : ℚ) (clock : Nat → String)
    (hnl : ∀ i, ('\n') ∉ (clock i).data) :
    yamlSplitGo [] (yamlOutput t clock).data =
      (yamlDocsOf t clock).map yamlStringify := by
  rcases yamlDocs_shape t clock with ⟨k, j, hk1, hk2, hcount, hdocs⟩
  rw [yamlOutput, data_mk]
  apply yamlSplitGo_joinSep
  · intro he
    have hlen := yamlDocsOf_length t clock
    rw [List.map_eq_nil_iff.mp he, hcount] at hlen
    simp at hlen
    omega
  · intro p hp
    rcases List.mem_map.mp hp with ⟨d, hd, rfl⟩
    rw [hdocs] at hd
    rcases List.mem_or_eq_of_mem_set hd with hd | rfl
    · simp only [provDocs, List.mem_map, List.mem_range] at hd
      rcases hd with ⟨i, _, rfl⟩
      exact hasSepB_doc _ _ _ (hnl i)
    · exact hasSepB_doc _ _ _ (hnl j)

theorem yamlDocsOf_get (t : ℚ) (clock : Nat → String) (i : Nat)
    (hi : i < yamlCountOf t clock) :
    ∃ d : YamlDoc, (yamlDocsOf t clock)[i]? = some d ∧ d.documentId = i + 1 := by
  rcases yamlDocs_shape t clock with ⟨k, j, hk1, hk2, hcount, hdocs⟩
  rw [hcount] at hi
  by_cases h0 : i = 0
  · subst h0
    refine ⟨generateDocument 1 (some k) (clock j), ?_, rfl⟩
    rw [hdocs, List.getElem?_set_self (by rw [provDocs_length]; omega)]
  · refine ⟨generateDocument (i + 1) none (clock i), ?_, rfl⟩
    rw [hdocs, List.getElem?_set_ne (fun he => h0 he.symm)]
    simp [provDocs, List.getElem?_range hi]

/-- Byte-size upper bound on the joined provisional documents, for a 24-byte clock. -/
theorem ySizeP_upper (clock : Nat → String) (hiso : IsoSized clock) :
    ∀ k, 1 ≤ k → k ≤ 1000001 → ySizeP clock k ≤ 3315 * k := by
  intro k
  induction k with
  | zero => intro h _; omega
  | succ m ih =>
    intro _ hcap
    by_cases hm : 1 ≤ m
    · have hs := ySizeP_succ clock m hm
      rw [yamlStringify_bytes_none, hiso m] at hs
      have hdl : dlen (m + 1) ≤ 7 := dlen_le 6 (m + 1) (by rw [pow7_eq]; omega)
      have hih := ih hm (by omega)
      omega
    · have hm0 : m = 0 := by omega
      subst hm0
      have h1 : ySizeP clock 1 = 3251 := by
        rw [ySizeP_one_eq, hiso 0]
      simp only [Nat.zero_add]
      omega

/-! The serialized first document starts with its documentId and timestamp lines, so
the output string embeds the clock reading at a fixed offset. -/

theorem yamlStringify_doc1_split (topt : Option Nat) (ts : String) :
    ∃ R, yamlStringify (generateDocument 1 topt ts) =
      ("documentId: 1\ntimestamp: \"").data ++ (ts.data ++ R) := by
  refine ⟨('\"') :: ('\n') ::
    ((((yamlDocLines (generateDocument 1 topt ts)).drop 2).map
      fun l => l ++ [('\n')]).flatten), ?_⟩
  have hlines : yamlDocLines (generateDocument 1 topt ts) =
      (("documentId: ").data ++ natDigits 1) ::
        ((("timestamp: ").data ++ dq ts.data) ::
          (yamlDocLines (generateDocument 1 topt ts)).drop 2) := by
    conv_lhs => rw [yamlDocLines_generateDocument]
    conv_rhs => rw [yamlDocLines_generateDocument]
    rfl
  rw [yamlStringify, hlines]
  simp only [List.drop_succ_cons, List.drop_zero, List.map_cons, List.flatten_cons]
  have hd1 : natDigits 1 = [('1')] := rfl
  rw [hd1]
  simp [dq, List.append_assoc]

theorem yamlOutput_prefix (t : ℚ) (clock : Nat → String) :
    ∃ j R, (yamlOutput t clock).data =
      ("documentId: 1\ntimestamp: \"").data ++ ((clock j).data ++ R) := by
  obtain ⟨k, j, hk1, hk2, hcount, hdocs⟩ := yamlDocs_shape t clock
  obtain ⟨m, rfl⟩ : ∃ m, k = m + 1 := ⟨k - 1, by omega⟩
  obtain ⟨R0, hR0⟩ := yamlStringify_doc1_split (some (m + 1)) (clock j)
  refine ⟨j, R0 ++ joinRest ((((List.range m).map fun i =>
    generateDocument (i + 2) none (clock (i + 1))).map yamlStringify)), ?_⟩
  rw [yamlOutput, data_mk, hdocs, provDocs_cons, List.set_cons_zero, List.map_cons,
    joinSep_cons, hR0]
  simp [List.append_assoc]

/-- A second ISO-sized constant clock, differing from stdClock in the year. -/
def altClock : Nat → String := fun _ => "2025-06-15T12:34:56.789Z"

theorem altClock_iso : IsoSized altClock := fun i => by
  show bsizeL (("2025-06-15T12:34:56.789Z").data) = 24
  decide

/-- Character 29 of the YAML output is character 3 of the timestamp (the last year
digit of the first document's clock reading). -/
theorem yamlOutput_year_char (t : ℚ) (s : String) (h3 : 3 < s.data.length) :
    (yamlOutput t (fun _ => s)).data[29]? = s.data[3]? := by
  obtain ⟨j, R, hpre⟩ := yamlOutput_prefix t (fun _ => s)
  rw [hpre, List.getElem?_append_right (by decide),
    show (29 : Nat) - (("documentId: 1\ntimestamp: \"").data).length = 3 from by decide]
  exact List.getElem?_append_left h3

/-! The ten claims. -/

/-- C1 counterexample: at target size 1/10000 MB with format json the generator
returns an artifact of 1056 bytes, exceeding the requested 104.8576 bytes, so the
claimed bound fails for small targets. -/
theorem C1_counterexample :
    ∃ e r, generateLargeObject (1 / 10000) ("json") stdClock = (e, .ok r) ∧
      (1 / 10000 : ℚ) * 1024 * 1024 < (getByteSize r.output : ℚ) := by
  refine ⟨_, _, generateLargeObject_json (1 / 10000) stdClock, ?_⟩
  show (1 / 10000 : ℚ) * 1024 * 1024 < (getByteSize (jsonOutput (1 / 10000)) : ℚ)
  have hd : jsonDepthOf (1 / 10000) = 0 :=
    jsonDepthOf_min _ (by rw [jsonSizeAt_zero]; norm_num [targetBytes])
  have hb : getByteSize (jsonOutput (1 / 10000)) = 1056 := by
    rw [jsonOutput_bytes, hd, pathBytes, jsonSizeAt_zero]
    norm_num
  rw [hb]
  norm_num

/-- C1 (amended): once the target budget exceeds the depth-1 chain (JSON) and the
single-document serialization (YAML), the returned artifact's UTF-8 byte size never
exceeds the raw requested size targetSizeMB*1024*1024; the unqualified original
claim fails for smaller targets (see the counterexample). -/
theorem C1_size_bound (t : ℚ) (clock : Nat → String) (hiso : IsoSized clock)
    (hj : (jsonSizeAt 1 : ℚ) < targetBytes t)
    (hy : (ySizeP clock 1 : ℚ) < targetBytes t) :
    (getByteSize (resOutput (generateLargeObject t ("json") clock)) : ℚ) ≤
        t * 1024 * 1024 ∧
      (getByteSize (resOutput (generateLargeObject t ("yaml") clock)) : ℚ) ≤
        t * 1024 * 1024 := by
  constructor
  · rw [generateLargeObject_json]
    show (getByteSize (jsonOutput t) : ℚ) ≤ t * 1024 * 1024
    exact json_bound t hj
  · rw [generateLargeObject_yaml]
    show (getByteSize (yamlOutput t clock) : ℚ) ≤ t * 1024 * 1024
    exact yaml_bound t clock (fun i => by rw [hiso i, hiso 0]) hy

/-- C1 witness: the amended bound instantiated at 1 MB with the standard clock. -/
theorem C1_size_bound_witness :
    (getByteSize (resOutput (generateLargeObject 1 ("json") stdClock)) : ℚ) ≤
        1 * 1024 * 1024 ∧
      (getByteSize (resOutput (generateLargeObject 1 ("yaml") stdClock)) : ℚ) ≤
        1 * 1024 * 1024 :=
  C1_size_bound 1 stdClock stdClock_iso
    (by rw [jsonSizeAt_one]; norm_num [targetBytes])
    (by rw [ySizeP_one_std]; norm_num [targetBytes])

/-- C2: every JSON run succeeds with a deepestPath whose dot-separated field-name
count equals the reported depth, those field names are depth many nested hops, and
following them from the root of the returned structure reaches a node with no
nested child. -/
theorem C2_deepest_path (t : ℚ) (clock : Nat → String) :
    ∃ e r, generateLargeObject t ("json") clock = (e, .ok r) ∧
      r.output = String.mk (jsonStr (jsonFinalObject t) 0) ∧
      (dotFieldNames r.deepestPath).length = r.depth ∧
      dotFieldNames r.deepestPath = List.replicate r.depth ("nested") ∧
      ∃ leaf, followPath (jsonFinalObject t) (dotFieldNames r.deepestPath) =
          some leaf ∧ jsonNested leaf = none := by
  refine ⟨_, _, generateLargeObject_json t clock, ?_⟩
  show jsonOutput t = String.mk (jsonStr (jsonFinalObject t) 0) ∧
    (dotFieldNames (pathStrOf (jsonDepthOf t))).length = jsonDepthOf t ∧
    dotFieldNames (pathStrOf (jsonDepthOf t)) =
      List.replicate (jsonDepthOf t) ("nested") ∧
    ∃ leaf, followPath (jsonFinalObject t) (dotFieldNames (pathStrOf (jsonDepthOf t))) =
        some leaf ∧ jsonNested leaf = none
  have hpath : dotFieldNames (pathStrOf (jsonDepthOf t)) =
      List.replicate (jsonDepthOf t) ("nested") := dotFieldNames_path _
  refine ⟨rfl, by rw [hpath, List.length_replicate], hpath, ?_⟩
  rw [hpath]
  exact followPath_final _ _

/-- C3: every YAML run succeeds; the output serializes the final document list, the
first document carries totalDocuments equal to the reported count, which equals the
number of documents, and no later document carries totalDocuments. -/
theorem C3_totalDocuments (t : ℚ) (clock : Nat → String) :
    ∃ e r, generateLargeObject t ("yaml") clock = (e, .ok r) ∧
      r.output = String.mk (joinSep ((yamlDocsOf t clock).map yamlStringify)) ∧
      (yamlDocsOf t clock).length = r.depth ∧
      (∃ d0, (yamlDocsOf t clock)[0]? = some d0 ∧
        d0.totalDocuments = some r.depth) ∧
      ∀ i d, (yamlDocsOf t clock)[i]? = some d → 1 ≤ i →
        d.totalDocuments = none := by
  refine ⟨_, _, generateLargeObject_yaml t clock, ?_⟩
  dsimp only
  obtain ⟨k, j, hk1, hk2, hcount, hdocs⟩ := yamlDocs_shape t clock
  refine ⟨rfl, yamlDocsOf_length t clock, ?_, ?_⟩
  · refine ⟨generateDocument 1 (some k) (clock j), ?_, ?_⟩
    · rw [hdocs, List.getElem?_set_self (by rw [provDocs_length]; omega)]
    · rw [hcount]
      simp [generateDocument]
  · intro i d hget hi
    rw [hdocs, List.getElem?_set_ne (by omega)] at hget
    simp only [provDocs, List.getElem?_map] at hget
    cases hr : (List.range k)[i]? with
    | none => rw [hr] at hget; simp at hget
    | some m =>
      rw [hr] at hget
      simp only [Option.map_some'] at hget
      rw [← Option.some_inj.mp hget]
      exact generateDocument_totalDocuments_none _ _

/-- C4: when no clock reading contains a newline, splitting the YAML output on the
document separator yields exactly as many pieces as the reported count, and the
i-th piece is the serialization of a document whose documentId is i+1 (IDs are
sequential from 1). -/
theorem C4_split_documents (t : ℚ) (clock : Nat → String)
    (hnl : ∀ i, ('\n') ∉ (clock i).data) :
    ∃ e r, generateLargeObject t ("yaml") clock = (e, .ok r) ∧
      (yamlSplitGo [] r.output.data).length = r.depth ∧
      ∀ i, i < r.depth →
        ∃ d, (yamlSplitGo [] r.output.data)[i]? = some (yamlStringify d) ∧
          d.documentId = i + 1 := by
  refine ⟨_, _, generateLargeObject_yaml t clock, ?_⟩
  dsimp only
  have hsplit := yaml_split_eq t clock hnl
  constructor
  · rw [hsplit, List.length_map, yamlDocsOf_length]
  · intro i hi
    rcases yamlDocsOf_get t clock i hi with ⟨d, hget, hid⟩
    refine ⟨d, ?_, hid⟩
    rw [hsplit, List.getElem?_map, hget]
    rfl

/-- C4 witness: the split property instantiated at 1 MB with the standard clock. -/
theorem C4_split_documents_witness :
    ∃ e r, generateLargeObject 1 ("yaml") stdClock = (e, .ok r) ∧
      (yamlSplitGo [] r.output.data).length = r.depth ∧
      ∀ i, i < r.depth →
        ∃ d, (yamlSplitGo [] r.output.data)[i]? = some (yamlStringify d) ∧
          d.documentId = i + 1 :=
  C4_split_documents 1 stdClock
    (fun i => (by decide : ('\n') ∉ (("2024-01-01T00:00:00.000Z")).data))

/-- C5: when even the minimal structure meets the 98% budget (the depth-0 node for
JSON, a single document for YAML), the generator still returns that minimal
structure instead of failing. -/
theorem C5_minimal (t : ℚ) (clock : Nat → String)
    (hj : targetBytes t ≤ (jsonSizeAt 0 : ℚ))
    (hy : targetBytes t ≤ (ySizeP clock 1 : ℚ)) :
    (∃ e r, generateLargeObject t ("json") clock = (e, .ok r) ∧ r.depth = 0 ∧
        r.output = String.mk (jsonStr (withDeepestPath 0 (pathStrOf 0)) 0)) ∧
      (∃ e r, generateLargeObject t ("yaml") clock = (e, .ok r) ∧ r.depth = 1 ∧
        yamlDocsOf t clock = [generateDocument 1 (some 1) (clock 1)]) := by
  have hd : jsonDepthOf t = 0 := jsonDepthOf_min t hj
  have hm := yaml_min (targetBytes t) clock hy
  constructor
  · refine ⟨_, _, generateLargeObject_json t clock, hd, ?_⟩
    show jsonOutput t = _
    unfold jsonOutput jsonFinalObject
    rw [hd]
  · refine ⟨_, _, generateLargeObject_yaml t clock, ?_, ?_⟩
    · dsimp only
      unfold yamlCountOf
      rw [hm]
    · unfold yamlDocsOf
      rw [hm]

/-- C5 witness: the minimal-structure property at target size 1/100000 MB. -/
theorem C5_minimal_witness :
    (∃ e r, generateLargeObject (1 / 100000) ("json") stdClock = (e, .ok r) ∧
        r.depth = 0 ∧
        r.output = String.mk (jsonStr (withDeepestPath 0 (pathStrOf 0)) 0)) ∧
      (∃ e r, generateLargeObject (1 / 100000) ("yaml") stdClock = (e, .ok r) ∧
        r.depth = 1 ∧
        yamlDocsOf (1 / 100000) stdClock = [generateDocument 1 (some 1) (stdClock 1)]) :=
  C5_minimal (1 / 100000) stdClock
    (by rw [jsonSizeAt_zero]; norm_num [targetBytes])
    (by rw [ySizeP_one_std]; norm_num [targetBytes])

/-- C6: a format whose lowercase form is neither json nor yaml makes the generator
throw the invalid-format error before any work (empty effect trace); a format whose
lowercase form is one of the two recognized values never throws it. -/
theorem C6_format_validation (t : ℚ) (clock : Nat → String) (format : String) :
    (toLowerStr format ≠ "json" ∧ toLowerStr format ≠ "yaml" →
      generateLargeObject t format clock = ([], .error .invalidFormat)) ∧
    (toLowerStr format = "json" ∨ toLowerStr format = "yaml" →
      ∃ e r, generateLargeObject t format clock = (e, .ok r)) := by
  constructor
  · rintro ⟨h1, h2⟩
    unfold generateLargeObject
    have hc : ((["json", "yaml"] : List String).contains (toLowerStr format)) = false := by
      simp only [List.contains_cons, List.contains_nil, Bool.or_eq_false_iff,
        beq_eq_false_iff_ne]
      exact ⟨h1, h2, trivial⟩
    rw [hc]
    rw [if_pos rfl]
  · intro h
    rcases h with hf | hf
    · rw [generateLargeObject_format_json t clock format hf]
      exact ⟨_, _, generateLargeObject_json t clock⟩
    · rw [generateLargeObject_format_yaml t clock format hf]
      exact ⟨_, _, generateLargeObject_yaml t clock⟩

/-- C6 witness: format XML is rejected with an empty trace; format Yaml (mixed
case) is accepted. -/
theorem C6_format_validation_witness :
    generateLargeObject 1 ("XML") stdClock = ([], .error .invalidFormat) ∧
      ∃ e r, generateLargeObject 1 ("Yaml") stdClock = (e, .ok r) :=
  ⟨(C6_format_validation 1 stdClock ("XML")).1 (by exact ⟨by decide, by decide⟩),
   (C6_format_validation 1 stdClock ("Yaml")).2 (Or.inr (by decide))⟩

/-- C7 counterexample: two YAML runs with the same target size and format but
different wall clocks return different output strings, so generation is not
independent of the clock. -/
theorem C7_counterexample :
    ∃ e1 r1 e2 r2,
      generateLargeObject 1 ("yaml") stdClock = (e1, .ok r1) ∧
      generateLargeObject 1 ("yaml") altClock = (e2, .ok r2) ∧
      r1.output ≠ r2.output := by
  refine ⟨_, _, _, _, generateLargeObject_yaml 1 stdClock,
    generateLargeObject_yaml 1 altClock, ?_⟩
  dsimp only
  intro he
  have g1 : (yamlOutput 1 stdClock).data[29]? = some ('4') := by
    have h := yamlOutput_year_char 1 ("2024-01-01T00:00:00.000Z") (by decide)
    rw [show (("2024-01-01T00:00:00.000Z")).data[3]? = some ('4') from by decide] at h
    exact h
  have g2 : (yamlOutput 1 altClock).data[29]? = some ('5') := by
    have h := yamlOutput_year_char 1 ("2025-06-15T12:34:56.789Z") (by decide)
    rw [show (("2025-06-15T12:34:56.789Z")).data[3]? = some ('5') from by decide] at h
    exact h
  rw [he, g2] at g1
  exact absurd g1 (by decide)

/-- C7 (amended/corrected): the JSON path is fully clock-independent (two runs with
any clocks return identical traces and results), and two YAML runs whose clocks
both always read 24 bytes agree on the document count and the output byte size; but
the full YAML output depends on the wall clock read at generation time (see the
counterexample), so the unqualified determinism claim fails. -/
theorem C7_determinism (t : ℚ) (c1 c2 : Nat → String) (h1 : IsoSized c1)
    (h2 : IsoSized c2) :
    generateLargeObject t ("json") c1 = generateLargeObject t ("json") c2 ∧
      yamlCountOf t c1 = yamlCountOf t c2 ∧
      getByteSize (yamlOutput t c1) = getByteSize (yamlOutput t c2) := by
  refine ⟨?_, yamlRun_congr t c1 c2 h1 h2⟩
  rw [generateLargeObject_json, generateLargeObject_json]

/-- C7 witness: the clock-independence facts at 1 MB for the two concrete clocks. -/
theorem C7_determinism_witness :
    generateLargeObject 1 ("json") stdClock = generateLargeObject 1 ("json") altClock ∧
      yamlCountOf 1 stdClock = yamlCountOf 1 altClock ∧
      getByteSize (yamlOutput 1 stdClock) = getByteSize (yamlOutput 1 altClock) :=
  C7_determinism 1 stdClock altClock stdClock_iso altClock_iso

/-- C8 counterexample: the generator itself records a file write (and a nonempty
console trace), refuting the claim that it performs no I/O. -/
theorem C8_counterexample :
    (generateLargeObject 1 ("json") stdClock).1.any isFileWrite = true ∧
      (generateLargeObject 1 ("json") stdClock).1 ≠ [] := by
  rw [generateLargeObject_json]
  exact ⟨rfl, by simp⟩

/-- C8 (corrected): on every successful run the generator itself performs six
observable effects: five console messages and the write of the output file; the
spec's claim that the core does no I/O is false of this code, where console logging
and writeFileSync happen inside generateLargeObject. -/
theorem C8_effects (t : ℚ) (clock : Nat → String) (format : String)
    (hf : toLowerStr format = "json" ∨ toLowerStr format = "yaml") :
    ∃ e r, generateLargeObject t format clock = (e, .ok r) ∧
      e.length = 6 ∧ e.filter isFileWrite = [.fileWrite r.fileName r.output] := by
  rcases hf with hf | hf
  · rw [generateLargeObject_format_json t clock format hf]
    refine ⟨_, _, generateLargeObject_json t clock, rfl, ?_⟩
    dsimp only
    rfl
  · rw [generateLargeObject_format_yaml t clock format hf]
    refine ⟨_, _, generateLargeObject_yaml t clock, rfl, ?_⟩
    dsimp only
    rfl

/-- C8 witness: the effect trace of a JSON run at 1 MB. -/
theorem C8_effects_witness :
    ∃ e r, generateLargeObject 1 ("json") stdClock = (e, .ok r) ∧
      e.length = 6 ∧ e.filter isFileWrite = [.fileWrite r.fileName r.output] :=
  C8_effects 1 stdClock ("json") (Or.inl (by decide))

theorem json_cap_condition : ∀ d, d ≤ 100000 →
    (jsonSizeAt d : ℚ) < targetBytes 10000000 := by
  intro d hd
  have hu := jsonSizeAt_upper d (by omega)
  have hm : d * (6 * d + 1058) ≤ 100000 * (6 * 100000 + 1058) :=
    Nat.mul_le_mul hd (by omega)
  have hN : jsonSizeAt d ≤ 60105801034 := by omega
  have hQ : (jsonSizeAt d : ℚ) ≤ 60105801034 := by exact_mod_cast hN
  have hlt : (60105801034 : ℚ) < targetBytes 10000000 := by norm_num [targetBytes]
  linarith

theorem yaml_cap_condition (clock : Nat → String) (hiso : IsoSized clock) :
    ∀ k, 1 ≤ k → k ≤ 1000001 → (ySizeP clock k : ℚ) < targetBytes 10000000 := by
  intro k h1 h2
  have hu := ySizeP_upper clock hiso k h1 h2
  have hm : 3315 * k ≤ 3315 * 1000001 := Nat.mul_le_mul (le_refl 3315) h2
  have hN : ySizeP clock k ≤ 3315003315 := by omega
  have hQ : (ySizeP clock k : ℚ) ≤ 3315003315 := by exact_mod_cast hN
  have hlt : (3315003315 : ℚ) < targetBytes 10000000 := by norm_num [targetBytes]
  linarith

/-- C9: when the size threshold is never reached the growth loops stop at their
hard caps instead of failing: the JSON run returns depth 100001 (the first depth
past the 100000 cap) and the YAML run returns 1000001 documents (the first count
past the 1000000 cap), both as ordinary successful results. -/
theorem C9_caps (t : ℚ) (clock : Nat → String)
    (hj : ∀ d, d ≤ 100000 → (jsonSizeAt d : ℚ) < targetBytes t)
    (hy : ∀ k, 1 ≤ k → k ≤ 1000001 → (ySizeP clock k : ℚ) < targetBytes t) :
    (∃ e r, generateLargeObject t ("json") clock = (e, .ok r) ∧ r.depth = 100001) ∧
      (∃ e r, generateLargeObject t ("yaml") clock = (e, .ok r) ∧
        r.depth = 1000001) := by
  constructor
  · refine ⟨_, _, generateLargeObject_json t clock, ?_⟩
    dsimp only
    unfold jsonDepthOf
    rw [buildToTargetSize_cap _ hj]
  · refine ⟨_, _, generateLargeObject_yaml t clock, ?_⟩
    dsimp only
    unfold yamlCountOf
    rw [yaml_cap _ _ hy]

/-- C9 witness: at target size 10^7 MB neither loop can reach the threshold, and
both runs stop at their caps. -/
theorem C9_caps_witness :
    (∃ e r, generateLargeObject 10000000 ("json") stdClock = (e, .ok r) ∧
        r.depth = 100001) ∧
      (∃ e r, generateLargeObject 10000000 ("yaml") stdClock = (e, .ok r) ∧
        r.depth = 1000001) :=
  C9_caps 10000000 stdClock json_cap_condition (yaml_cap_condition stdClock stdClock_iso)

/-- C10: for a non-positive target size the generator does not fail: the JSON run
returns the depth-0 root with deepestPath "." and depth 0, and the YAML run returns
a single document whose totalDocuments field is 1. -/
theorem C10_nonpositive (t : ℚ) (clock : Nat → String) (ht : t ≤ 0) :
    (∃ e r, generateLargeObject t ("json") clock = (e, .ok r) ∧
        r.depth = 0 ∧ r.deepestPath = ".") ∧
      (∃ e r, generateLargeObject t ("yaml") clock = (e, .ok r) ∧ r.depth = 1 ∧
        yamlDocsOf t clock = [generateDocument 1 (some 1) (clock 1)] ∧
        (generateDocument 1 (some 1) (clock 1)).totalDocuments = some 1) := by
  have hT := targetBytes_nonpos t ht
  have hj : targetBytes t ≤ (jsonSizeAt 0 : ℚ) := le_trans hT (Nat.cast_nonneg _)
  have hy : targetBytes t ≤ (ySizeP clock 1 : ℚ) := le_trans hT (Nat.cast_nonneg _)
  have hd : jsonDepthOf t = 0 := jsonDepthOf_min t hj
  have hm := yaml_min (targetBytes t) clock hy
  constructor
  · refine ⟨_, _, generateLargeObject_json t clock, hd, ?_⟩
    dsimp only
    rw [hd, pathStrOf_zero]
  · refine ⟨_, _, generateLargeObject_yaml t clock, ?_, ?_, ?_⟩
    · dsimp only
      unfold yamlCountOf
      rw [hm]
    · unfold yamlDocsOf
      rw [hm]
    · simp [generateDocument]

/-- C10 witness: the zero-target behavior with the standard clock. -/
theorem C10_nonpositive_witness :
    (∃ e r, generateLargeObject 0 ("json") stdClock = (e, .ok r) ∧
        r.depth = 0 ∧ r.deepestPath = ".") ∧
      (∃ e r, generateLargeObject 0 ("yaml") stdClock = (e, .ok r) ∧ r.depth = 1 ∧
        yamlDocsOf 0 stdClock = [generateDocument 1 (some 1) (stdClock 1)] ∧
        (generateDocument 1 (some 1) (stdClock 1)).totalDocuments = some 1) :=
  C10_nonpositive 0 stdClock (le_refl 0)
